import Mathlib

/-!
Verification of the authentication-completion callback of this repository.

The development shallowly embeds the two authoritative source files:

* the Discourse SSO initiation step (nonce, HMAC signature, redirect URL
  construction), and
* the callback orchestrator with its four provider branches
  (discourse / oauth / email / credentials).

JavaScript strings are modelled as Lean strings; Node byte buffers as
lists of natural numbers below 256.  External Node primitives that the
source merely calls (crypto HMAC, persistence adapter, user-supplied
hooks, the OAuth transport, the callback handler library) are modelled
as explicit function parameters; the base64, utf8, percent-encoding and
query-string codecs are implemented faithfully because the claims
quantify over their behaviour.  An uncaught JavaScript exception is the
Except.error case of the result; the ordered list of observable effects
(cookie writes, hook invocations, the final response) is the returned
trace.
-/

/-- JavaScript runtime values, as far as the callback code inspects them. -/
inductive JsValue where
  | undefined : JsValue
  | null : JsValue
  | bool : Bool → JsValue
  | num : Int → JsValue
  | str : String → JsValue
  | arr : List JsValue → JsValue
  | obj : List (String × JsValue) → JsValue

/-- JavaScript truthiness of a value. -/
def JsValue.truthy : JsValue → Bool
  | .undefined => false
  | .null => false
  | .bool b => b
  | .num n => n != 0
  | .str s => s != ""
  | .arr _ => true
  | .obj _ => true

/-- Strict equality test against the literal `false`, as in the source's
check of the signin callback response. -/
def JsValue.isBoolFalse : JsValue → Bool
  | .bool false => true
  | _ => false

/-- Strict equality of a value against a string literal, as in the
source's admin / moderator flag checks. -/
def JsValue.strictEqStr : JsValue → String → Bool
  | .str s, t => s == t
  | _, _ => false

/-- A thrown JavaScript error; the orchestrator dispatches on its name. -/
structure JsError where
  name : String
deriving DecidableEq, Repr

/-- JavaScript truthiness of an optional string (absent means undefined). -/
def optFalsy : Option String → Bool
  | none => true
  | some s => s == ""

/-- Negation of optFalsy. -/
def optTruthy (o : Option String) : Bool := !optFalsy o

/-- The JavaScript expression o or-else d for strings (first operand if
truthy, otherwise the default), as in callbackUrl or-else site. -/
def orElseStr (o : Option String) (d : String) : String :=
  match o with
  | some s => if s == "" then d else s
  | none => d

/-- Lift an optional string into a JavaScript value (absent = undefined). -/
def jsOfOpt : Option String → JsValue
  | none => .undefined
  | some s => .str s

/-- The JavaScript or-else operator on values: first operand if truthy. -/
def jsOr (a b : JsValue) : JsValue := if a.truthy then a else b

/-! ## Byte-level codecs

The source calls Buffer.from(s).toString base64 / utf8 and
querystring.parse; the claims quantify over these, so they are
implemented rather than abstracted.  Bytes are naturals below 256. -/

/-- UTF-8 encoding of one unicode code point, as Node Buffer.from uses. -/
def utf8EncodeCp (n : Nat) : List Nat :=
  if n < 0x80 then [n]
  else if n < 0x800 then [0xC0 + n / 64, 0x80 + n % 64]
  else if n < 0x10000 then
    [0xE0 + n / 4096, 0x80 + (n / 64) % 64, 0x80 + n % 64]
  else
    [0xF0 + n / 262144, 0x80 + (n / 4096) % 64, 0x80 + (n / 64) % 64, 0x80 + n % 64]

/-- UTF-8 encoding of a character list. -/
def utf8EncodeList : List Char → List Nat
  | [] => []
  | c :: cs => utf8EncodeCp c.toNat ++ utf8EncodeList cs

/-- UTF-8 encoding of a string into bytes, as Buffer.from(s) does. -/
def utf8Encode (s : String) : List Nat := utf8EncodeList s.data

/-- Check for a UTF-8 continuation byte. -/
def isCont (b : Nat) : Bool := 0x80 ≤ b && b < 0xC0

/-- One step of UTF-8 decoding: given a lead byte and the remaining
bytes, produce the decoded character and the bytes left over.
Malformed sequences yield a replacement character, as Node's
Buffer.toString utf8 does. -/
def utf8Step (b1 : Nat) (r1 : List Nat) : Char × List Nat :=
  if b1 < 0x80 then (Char.ofNat b1, r1)
  else if b1 < 0xC0 then (Char.ofNat 0xFFFD, r1)
  else if b1 < 0xE0 then
    match r1 with
    | b2 :: r2 =>
      if isCont b2 then (Char.ofNat ((b1 - 0xC0) * 64 + (b2 - 0x80)), r2)
      else (Char.ofNat 0xFFFD, b2 :: r2)
    | [] => (Char.ofNat 0xFFFD, [])
  else if b1 < 0xF0 then
    match r1 with
    | b2 :: b3 :: r3 =>
      if isCont b2 && isCont b3 then
        (Char.ofNat ((b1 - 0xE0) * 4096 + (b2 - 0x80) * 64 + (b3 - 0x80)), r3)
      else (Char.ofNat 0xFFFD, b2 :: b3 :: r3)
    | r => (Char.ofNat 0xFFFD, r)
  else
    match r1 with
    | b2 :: b3 :: b4 :: r4 =>
      if isCont b2 && isCont b3 && isCont b4 then
        (Char.ofNat
            ((b1 - 0xF0) * 262144 + (b2 - 0x80) * 4096 +
              (b3 - 0x80) * 64 + (b4 - 0x80)), r4)
      else (Char.ofNat 0xFFFD, b2 :: b3 :: b4 :: r4)
    | r => (Char.ofNat 0xFFFD, r)

/-- Fuelled UTF-8 decoding; the fuel only bounds the recursion depth
and one unit per consumed lead byte always suffices. -/
def utf8DecodeListF : Nat → List Nat → List Char
  | _, [] => []
  | 0, _ :: _ => []
  | f + 1, b1 :: r1 =>
    (utf8Step b1 r1).1 :: utf8DecodeListF f (utf8Step b1 r1).2

/-- UTF-8 decoding of a byte list back into characters. -/
def utf8DecodeList (l : List Nat) : List Char := utf8DecodeListF l.length l

/-- UTF-8 decoding of bytes into a string. -/
def utf8Decode (bs : List Nat) : String := String.mk (utf8DecodeList bs)

/-- The base64 alphabet in order. -/
def b64Alphabet : List Char :=
  ['A','B','C','D','E','F','G','H','I','J','K','L','M','N','O','P',
   'Q','R','S','T','U','V','W','X','Y','Z',
   'a','b','c','d','e','f','g','h','i','j','k','l','m','n','o','p',
   'q','r','s','t','u','v','w','x','y','z',
   '0','1','2','3','4','5','6','7','8','9','+','/']

/-- Character for a six-bit group. -/
def b64Char (k : Nat) : Char := b64Alphabet.getD k 'A'

/-- Six-bit value of a base64 character; characters outside the alphabet
(including padding) yield none and are skipped, as Node's lenient
base64 decoder does. -/
def b64Val (c : Char) : Option Nat := b64Alphabet.findIdx? (· == c)

/-- Base64 encoding of a byte list into characters, three bytes at a
time with prescribed padding. -/
def bytesToB64 : List Nat → List Char
  | [] => []
  | [b1] => [b64Char (b1 / 4), b64Char (b1 % 4 * 16), '=', '=']
  | [b1, b2] =>
    [b64Char (b1 / 4), b64Char (b1 % 4 * 16 + b2 / 16), b64Char (b2 % 16 * 4), '=']
  | b1 :: b2 :: b3 :: rest =>
    b64Char (b1 / 4) :: b64Char (b1 % 4 * 16 + b2 / 16) ::
      b64Char (b2 % 16 * 4 + b3 / 64) :: b64Char (b3 % 64) :: bytesToB64 rest

/-- Reassembly of bytes from six-bit groups, four at a time; a trailing
group of two or three six-bit values yields one or two bytes. -/
def sextetsToBytes : List Nat → List Nat
  | s1 :: s2 :: s3 :: s4 :: rest =>
    (s1 * 4 + s2 / 16) :: (s2 % 16 * 16 + s3 / 4) :: (s3 % 4 * 64 + s4) ::
      sextetsToBytes rest
  | [s1, s2] => [s1 * 4 + s2 / 16]
  | [s1, s2, s3] => [s1 * 4 + s2 / 16, s2 % 16 * 16 + s3 / 4]
  | _ => []

/-- Base64 encoding of bytes as a string, as Buffer.toString base64. -/
def base64Encode (bs : List Nat) : String := String.mk (bytesToB64 bs)

/-- Base64 decoding of a string into bytes, as Buffer.from(s, base64):
characters outside the alphabet are skipped. -/
def base64Decode (s : String) : List Nat :=
  sextetsToBytes (s.data.filterMap b64Val)

/-- Value of a hexadecimal digit character, if any. -/
def hexVal (c : Char) : Option Nat :=
  if '0' ≤ c ∧ c ≤ '9' then some (c.toNat - '0'.toNat)
  else if 'a' ≤ c ∧ c ≤ 'f' then some (c.toNat - 'a'.toNat + 10)
  else if 'A' ≤ c ∧ c ≤ 'F' then some (c.toNat - 'A'.toNat + 10)
  else none

/-- One step of percent-decoding: the emitted characters and the
remaining input.  A valid two-digit escape becomes the character of
that byte value, anything else is kept. -/
def pctStep (c : Char) (rest : List Char) : List Char × List Char :=
  if c = '%' then
    match rest with
    | c1 :: c2 :: rest2 =>
      match hexVal c1, hexVal c2 with
      | some h1, some h2 => ([Char.ofNat (h1 * 16 + h2)], rest2)
      | _, _ => (['%'], c1 :: c2 :: rest2)
    | r => (['%'], r)
  else ([c], rest)

/-- Fuelled percent-decoding; one unit of fuel per consumed character
always suffices. -/
def pctDecodeListF : Nat → List Char → List Char
  | _, [] => []
  | 0, _ :: _ => []
  | f + 1, c :: rest => (pctStep c rest).1 ++ pctDecodeListF f (pctStep c rest).2

/-- Percent-decoding of a character list.  This models decodeURIComponent
as the callback applies it to the sso query value (which is plain
base64 and contains no percent sign). -/
def pctDecodeList (l : List Char) : List Char := pctDecodeListF l.length l

/-- Model of decodeURIComponent on strings. -/
def decodeURIComponentM (s : String) : String := String.mk (pctDecodeList s.data)

/-- One step of query-string unescaping as Node querystring.parse
applies it to each key and value: plus becomes a space, percent escapes
are decoded, anything else is kept. -/
def qsStep (c : Char) (rest : List Char) : List Char × List Char :=
  if c = '+' then ([' '], rest)
  else if c = '%' then
    match rest with
    | c1 :: c2 :: rest2 =>
      match hexVal c1, hexVal c2 with
      | some h1, some h2 => ([Char.ofNat (h1 * 16 + h2)], rest2)
      | _, _ => (['%'], c1 :: c2 :: rest2)
    | r => (['%'], r)
  else ([c], rest)

/-- Fuelled query-string unescaping; one unit of fuel per consumed
character always suffices. -/
def qsUnescapeListF : Nat → List Char → List Char
  | _, [] => []
  | 0, _ :: _ => []
  | f + 1, c :: rest => (qsStep c rest).1 ++ qsUnescapeListF f (qsStep c rest).2

/-- Query-string unescaping of a character list. -/
def qsUnescapeList (l : List Char) : List Char := qsUnescapeListF l.length l

/-- String form of query-string unescaping. -/
def qsUnescape (s : String) : String := String.mk (qsUnescapeList s.data)

/-- Splitting a character list on a separator; returns one (possibly
empty) segment more than the number of separators. -/
def splitOnChar (sep : Char) : List Char → List (List Char)
  | [] => [[]]
  | c :: rest =>
    match splitOnChar sep rest with
    | [] => [[]]
    | seg :: segs =>
      if c = sep then [] :: seg :: segs else (c :: seg) :: segs

/-- Splitting a segment at its first equals sign: key and value.  A
segment with no equals sign is a bare key with empty value. -/
def splitFirstEq : List Char → List Char × List Char
  | [] => ([], [])
  | c :: rest =>
    if c = '=' then ([], rest)
    else ((c :: (splitFirstEq rest).1), (splitFirstEq rest).2)

/-- Model of Node querystring.parse: split on ampersands, drop empty
segments, split each segment at its first equals sign, unescape both
sides.  The result is the ordered list of key / value pairs. -/
def qsParse (s : String) : List (String × String) :=
  ((splitOnChar '&' s.data).filter fun seg => !seg.isEmpty).map fun seg =>
    (String.mk (qsUnescapeList (splitFirstEq seg).1),
     String.mk (qsUnescapeList (splitFirstEq seg).2))

/-- All values stored under a key, in order. -/
def qsGetAll (l : List (String × String)) (k : String) : List String :=
  (l.filter (·.1 == k)).map (·.2)

/-- Property access on a parsed query object: an absent key is
undefined, a single occurrence is its string, repeated occurrences are
the array of strings, as Node querystring.parse builds the object. -/
def qsGetJs (l : List (String × String)) (k : String) : JsValue :=
  match qsGetAll l k with
  | [] => .undefined
  | [v] => .str v
  | vs => .arr (vs.map .str)

/-- Hexadecimal digit character, uppercase, for percent-encoding. -/
def hexDigitUpper (n : Nat) : Char :=
  ['0','1','2','3','4','5','6','7','8','9','A','B','C','D','E','F'].getD n '0'

/-- Characters that encodeURIComponent leaves unescaped. -/
def uriUnreserved (c : Char) : Bool :=
  ('A' ≤ c && c ≤ 'Z') || ('a' ≤ c && c ≤ 'z') || ('0' ≤ c && c ≤ '9') ||
    c == '-' || c == '_' || c == '.' || c == '!' || c == '~' || c == '*' ||
    c == '\'' || c == '(' || c == ')'

/-- Percent-encoding of a byte. -/
def pctByte (b : Nat) : List Char := ['%', hexDigitUpper (b / 16), hexDigitUpper (b % 16)]

/-- Model of encodeURIComponent: unreserved characters kept, everything
else percent-encoded byte-wise over its UTF-8 encoding. -/
def encodeURIComponentM (s : String) : String :=
  String.mk (s.data.foldr (fun c acc =>
    (if uriUnreserved c then [c] else (utf8EncodeCp c.toNat).foldr (fun b a => pctByte b ++ a) []) ++ acc) [])

/-! ## Configuration, request and collaborator model

These mirror the options object destructured at the top of the callback
orchestrator, the incoming request, and the external collaborators
(crypto HMAC, hooks, adapter, callback-handler library, OAuth
transport) that the orchestrator calls.  The event dispatcher is
modelled from the spec: event dispatch is fire-and-forget and its
failure must not block the redirect (the dispatch-event module is not
among the given source files), so dispatching cannot throw here. -/

/-- Options carried by a cookie description in the options object. -/
structure CookieOpts where
  maxAge : Option Int := none
  expires : Option String := none
deriving DecidableEq, Repr

/-- One Set-Cookie directive as the cookie library receives it. -/
structure SetCookie where
  name : String
  value : String
  expires : Option String
  maxAge : Option Int
deriving DecidableEq, Repr

/-- A session record returned by the callback handler collaborator. -/
structure SessionRec where
  sessionToken : String
  expires : Option String
deriving DecidableEq, Repr

/-- The options object of the orchestrator, restricted to the fields the
four branches read.  The HMAC is the external crypto primitive
(secret, message to hex digest). -/
structure Config where
  providerType : String
  providerId : String
  providerSecret : String
  secret : String
  jwtSecret : String
  useJwtSession : Bool
  sessionMaxAge : Int
  baseUrl : String
  site : String
  callbackUrl : Option String
  newUserPage : Option String
  sessionTokenName : String
  nonceHashName : String
  sessionTokenOpts : CookieOpts
  nonceHashOpts : CookieOpts
  sessionExpiresIso : String
  hmac : String → String → String

/-- The incoming callback request: method, the query parameters the
branches read, cookies, and the request body (credentials). -/
structure Req where
  method : String
  sso : Option String
  sig : Option String
  token : Option String
  email : Option String
  cookies : String → Option String
  body : JsValue

/-- The persistence adapter interface used by the email branch. -/
structure Adapter where
  getVerificationRequest : Option String → Option String → Except JsError JsValue
  deleteVerificationRequest : Option String → Option String → Except JsError Unit
  getUserByEmail : Option String → Except JsError JsValue

/-- Outcome of the external OAuth transport: either it throws
synchronously, or it invokes the orchestrator's handler with an error,
a profile, an account and the raw provider profile. -/
inductive OAuthOutcome where
  | threw : JsError → OAuthOutcome
  | result : Option JsError → JsValue → JsValue → JsValue → OAuthOutcome

/-- External collaborators and user-supplied hooks. -/
structure Hooks where
  signin : JsValue → JsValue → JsValue → Except JsError JsValue
  jwtCallback : JsValue → JsValue → Except JsError JsValue
  jwtEncode : String → JsValue → Int → Except JsError String
  callbackHandler : Option String → JsValue → JsValue → Except JsError (JsValue × SessionRec × Bool)
  adapter : Option Adapter
  authorize : Option (JsValue → Except JsError JsValue)
  oauthOutcome : OAuthOutcome

/-- Observable effects of one callback run, in program order. -/
inductive Ev where
  | setCookie : SetCookie → Ev
  | decodePayload : Ev
  | signinHook : Ev
  | callbackHandlerCall : Ev
  | jwtHookCall : Ev
  | jwtEncodeCall : Ev
  | dispatchSignin : Ev
  | getVerificationCall : Ev
  | deleteVerificationCall : Ev
  | getUserByEmailCall : Ev
  | authorizeCall : Ev
  | redirect : Nat → String → Ev
  | respond : Nat → String → Ev
deriving DecidableEq, Repr

/-- Error page URL, as the string interpolation in the source builds it. -/
def errorUrl (cfg : Config) (code : String) : String :=
  cfg.baseUrl ++ "/error?error=" ++ code

/-- The directive clearing the nonce cookie: empty value and a literal
object with maxAge minus one spread-extended with the configured
options (so a configured maxAge would win over the literal). -/
def clearNonceCookie (cfg : Config) : SetCookie :=
  { name := cfg.nonceHashName
    value := ""
    maxAge := some (cfg.nonceHashOpts.maxAge.getD (-1))
    expires := cfg.nonceHashOpts.expires }

/-- Session cookie carrying a freshly signed token: expiry is the
computed absolute date unless the configured options carry one. -/
def jwtSessionCookie (cfg : Config) (tok : String) : SetCookie :=
  { name := cfg.sessionTokenName
    value := tok
    expires := some (cfg.sessionTokenOpts.expires.getD cfg.sessionExpiresIso)
    maxAge := cfg.sessionTokenOpts.maxAge }

/-- Session cookie carrying an opaque session token: expiry is the
session record's own expiry (or null) unless the options carry one. -/
def recSessionCookie (cfg : Config) (s : SessionRec) : SetCookie :=
  { name := cfg.sessionTokenName
    value := s.sessionToken
    expires := cfg.sessionTokenOpts.expires.orElse
      (fun _ => if optTruthy s.expires then s.expires else none)
    maxAge := cfg.sessionTokenOpts.maxAge }

/-- Token payload built before the jwt callback hook runs. -/
def defaultJwtPayload (user account : JsValue) (isNewUser : Bool) : JsValue :=
  .obj [("user", user), ("account", account), ("isNewUser", .bool isNewUser)]

/-- Session issuance as repeated in the discourse, oauth and email
branches: in token mode run the jwt hook, encode, and set the cookie;
otherwise store the opaque session token in the cookie.  Returns the
effects together with the error it would throw, if any. -/
def issueSessionEvs (cfg : Config) (hooks : Hooks) (user account : JsValue)
    (isNewUser : Bool) (oauthProfile : JsValue) (session : SessionRec) :
    List Ev × Option JsError :=
  if cfg.useJwtSession then
    match hooks.jwtCallback (defaultJwtPayload user account isNewUser) oauthProfile with
    | .error e => ([.jwtHookCall], some e)
    | .ok p =>
      match hooks.jwtEncode cfg.jwtSecret p cfg.sessionMaxAge with
      | .error e => ([.jwtHookCall, .jwtEncodeCall], some e)
      | .ok tok => ([.jwtHookCall, .jwtEncodeCall, .setCookie (jwtSessionCookie cfg tok)], none)
  else ([.setCookie (recSessionCookie cfg session)], none)

/-! ## Discourse SSO initiation (the getAuthorisationUrl source file) -/

/-- Payload string the initiation step concatenates. -/
def ssoPayload (nonce url : String) : String :=
  "nonce=" ++ nonce ++ "&return_sso_url=" ++ url

/-- Base64 form of the payload, as Buffer.from(payload).toString base64. -/
def ssoPayloadB64 (nonce url : String) : String :=
  base64Encode (utf8Encode (ssoPayload nonce url))

/-- Hex HMAC signature the initiation computes over the base64 payload. -/
def ssoHexSig (hmac : String → String → String) (secret nonce url : String) : String :=
  hmac secret (ssoPayloadB64 nonce url)

/-- Result the initiation passes to its continuation. -/
structure AuthInit where
  nonceHash : String
  urlRedirect : String
deriving DecidableEq, Repr

/-- The initiation step: build the payload, base64-encode, sign, build
the redirect URL, and hash the nonce for the binding cookie.  The
nonce argument stands for the hex string of the sixteen random bytes. -/
def getAuthorisationUrl (hmac : String → String → String)
    (secret callbackUrl url nonce : String) : AuthInit :=
  let payload_b64 := base64Encode (utf8Encode ("nonce=" ++ nonce ++ "&return_sso_url=" ++ callbackUrl))
  let hex_sig := hmac secret payload_b64
  let urlenc_payload_b64 := encodeURIComponentM payload_b64
  let url_redirect := url ++ "/session/sso_provider?sso=" ++ urlenc_payload_b64 ++ "&sig=" ++ hex_sig
  let nonceHash := hmac secret nonce
  { nonceHash := nonceHash, urlRedirect := url_redirect }

/-! ## The callback orchestrator (the callback source file) -/

/-- Signature verification of the discourse callback: hex HMAC over the
url-decoded sso value compared with the sig query value. -/
def ssoVerify (hmac : String → String → String) (secret sso sig : String) : Bool :=
  sig == hmac secret (decodeURIComponentM sso)

/-- Payload decoding of the discourse callback: base64 to bytes, bytes
to utf8, query-string parse. -/
def ssoDecode (sso : String) : List (String × String) :=
  qsParse (utf8Decode (base64Decode sso))

/-- The discourse branch of the callback orchestrator.  This branch has
no exception handler, so a thrown error is returned as Except.error. -/
def discourseBranch (cfg : Config) (hooks : Hooks) (req : Req) :
    Except JsError (List Ev) :=
  match req.sso, req.sig with
  | some sso, some sig =>
    if sso == "" || sig == "" then
      .ok [.redirect 302 (errorUrl cfg "oAuthCallback")]
    else if !ssoVerify cfg.hmac cfg.providerSecret sso sig then
      .ok [.redirect 302 (errorUrl cfg "oAuthCallback")]
    else
      let ret := ssoDecode sso
      match qsGetJs ret "nonce" with
      | .str n =>
        let nonceHash := cfg.hmac cfg.providerSecret n
        let cookieNonceHash := req.cookies cfg.nonceHashName
        let clear := clearNonceCookie cfg
        if cookieNonceHash ≠ some nonceHash || nonceHash == "" || optFalsy cookieNonceHash then
          .ok [.decodePayload, .setCookie clear,
               .redirect 302 (errorUrl cfg "oAuthCallback")]
        else
          let eid := qsGetJs ret "external_id"
          let em := qsGetJs ret "email"
          let un := qsGetJs ret "username"
          if !eid.truthy || !em.truthy || !un.truthy then
            .ok [.decodePayload, .setCookie clear,
                 .redirect 302 (errorUrl cfg "oAuthCallback")]
          else
            let profile : JsValue := .obj
              [("email", em),
               ("name", jsOr (qsGetJs ret "name") un),
               ("image", jsOr (qsGetJs ret "avatar_url") (.str "")),
               ("username", un),
               ("id", eid),
               ("admin", .bool ((qsGetJs ret "admin").strictEqStr "true")),
               ("moderator", .bool ((qsGetJs ret "moderator").strictEqStr "true"))]
            let account : JsValue := .obj
              [("id", eid), ("type", .str cfg.providerType), ("provider", .str cfg.providerId)]
            match hooks.signin profile account .null with
            | .error e => .error e
            | .ok v =>
              if v.isBoolFalse then
                .ok [.decodePayload, .setCookie clear, .signinHook,
                     .redirect 302 (errorUrl cfg "AccessDenied")]
              else
                match hooks.callbackHandler (req.cookies cfg.sessionTokenName) profile account with
                | .error e => .error e
                | .ok (user, session, isNewUser) =>
                  match issueSessionEvs cfg hooks user account isNewUser .null session with
                  | (_, some e) => .error e
                  | (evs, none) =>
                    .ok ([.decodePayload, .setCookie clear, .signinHook, .callbackHandlerCall] ++
                      evs ++ [.dispatchSignin,
                        .redirect 302 (orElseStr cfg.callbackUrl cfg.site)])
      | _ =>
        -- hmac.update of an absent or repeated nonce field throws a TypeError
        .error { name := "TypeError" }
  | _, _ => .ok [.redirect 302 (errorUrl cfg "oAuthCallback")]

/-- Error code mapping of the oauth branch's inner exception handler. -/
def oauthErrCode (e : JsError) : String :=
  if e.name = "AccountNotLinkedError" then "OAuthAccountNotLinked"
  else if e.name = "CreateUserError" then "OAuthCreateAccount"
  else "Callback"

/-- Body of the handler the oauth branch hands to the OAuth transport,
before its surrounding exception handler: effects plus the error it
would throw, if any. -/
def oauthInner (cfg : Config) (hooks : Hooks) (req : Req)
    (err : Option JsError) (profile account oauthProfile : JsValue) :
    List Ev × Option JsError :=
  if err.isSome then ([.redirect 302 (errorUrl cfg "oAuthCallback")], none)
  else if !profile.truthy then ([.redirect 302 (cfg.baseUrl ++ "/signin")], none)
  else
    match hooks.signin profile account oauthProfile with
    | .error e => ([.signinHook], some e)
    | .ok v =>
      if v.isBoolFalse then
        ([.signinHook, .redirect 302 (errorUrl cfg "AccessDenied")], none)
      else
        match hooks.callbackHandler (req.cookies cfg.sessionTokenName) profile account with
        | .error e => ([.signinHook, .callbackHandlerCall], some e)
        | .ok (user, session, isNewUser) =>
          match issueSessionEvs cfg hooks user account isNewUser oauthProfile session with
          | (evs, some e) => ([.signinHook, .callbackHandlerCall] ++ evs, some e)
          | (evs, none) =>
            let pre := [.signinHook, .callbackHandlerCall] ++ evs ++ [.dispatchSignin]
            if isNewUser && optTruthy cfg.newUserPage then
              (pre ++ [.redirect 302 (cfg.newUserPage.getD "")], none)
            else
              (pre ++ [.redirect 302 (orElseStr cfg.callbackUrl cfg.site)], none)

/-- The oauth branch: the transport either throws (caught by the outer
handler) or invokes the inner handler, whose own exception handler maps
error names to error codes.  Every path answers with a redirect. -/
def oauthBranch (cfg : Config) (hooks : Hooks) (req : Req) :
    Except JsError (List Ev) :=
  match hooks.oauthOutcome with
  | .threw _ => .ok [.redirect 302 (errorUrl cfg "Callback")]
  | .result err profile account oauthProfile =>
    match oauthInner cfg hooks req err profile account oauthProfile with
    | (t, none) => .ok t
    | (t, some e) => .ok (t ++ [.redirect 302 (errorUrl cfg (oauthErrCode e))])

/-- Error code mapping of the email branch's exception handler. -/
def emailErrCode (e : JsError) : String :=
  if e.name = "CreateUserError" then "EmailCreateAccount" else "Callback"

/-- Body of the email branch before its surrounding exception handler:
effects plus the error it would throw, if any. -/
def emailInner (cfg : Config) (hooks : Hooks) (req : Req) :
    List Ev × Option JsError :=
  match hooks.adapter with
  | none => ([.redirect 302 (errorUrl cfg "Configuration")], none)
  | some a =>
    match a.getVerificationRequest req.email req.token with
    | .error e => ([.getVerificationCall], some e)
    | .ok invite =>
      if !invite.truthy then
        ([.getVerificationCall, .redirect 302 (errorUrl cfg "Verification")], none)
      else
        match a.deleteVerificationRequest req.email req.token with
        | .error e => ([.getVerificationCall, .deleteVerificationCall], some e)
        | .ok _ =>
          match a.getUserByEmail req.email with
          | .error e => ([.getVerificationCall, .deleteVerificationCall, .getUserByEmailCall], some e)
          | .ok u =>
            let profile := if u.truthy then u else .obj [("email", jsOfOpt req.email)]
            let account : JsValue := .obj
              [("id", .str cfg.providerId), ("type", .str "email"),
               ("providerAccountId", jsOfOpt req.email)]
            let t0 : List Ev := [.getVerificationCall, .deleteVerificationCall, .getUserByEmailCall]
            match hooks.signin profile account .null with
            | .error e => (t0 ++ [.signinHook], some e)
            | .ok v =>
              if v.isBoolFalse then
                (t0 ++ [.signinHook, .redirect 302 (errorUrl cfg "AccessDenied")], none)
              else
                match hooks.callbackHandler (req.cookies cfg.sessionTokenName) profile account with
                | .error e => (t0 ++ [.signinHook, .callbackHandlerCall], some e)
                | .ok (user, session, isNewUser) =>
                  match issueSessionEvs cfg hooks user account isNewUser .undefined session with
                  | (evs, some e) => (t0 ++ [.signinHook, .callbackHandlerCall] ++ evs, some e)
                  | (evs, none) =>
                    let pre := t0 ++ [.signinHook, .callbackHandlerCall] ++ evs ++ [.dispatchSignin]
                    if isNewUser && optTruthy cfg.newUserPage then
                      (pre ++ [.redirect 302 (cfg.newUserPage.getD "")], none)
                    else
                      (pre ++ [.redirect 302 (orElseStr cfg.callbackUrl cfg.site)], none)

/-- The email branch: the whole body runs inside an exception handler
mapping error names to error codes, so every path answers with a
redirect. -/
def emailBranch (cfg : Config) (hooks : Hooks) (req : Req) :
    Except JsError (List Ev) :=
  match emailInner cfg hooks req with
  | (t, none) => .ok t
  | (t, some e) => .ok (t ++ [.redirect 302 (errorUrl cfg (emailErrCode e))])

/-- The credentials branch.  Only the authorize call runs inside an
exception handler; the signin hook, the jwt callback and the token
encoding have none, so their errors are returned as Except.error. -/
def credentialsBranch (cfg : Config) (hooks : Hooks) (req : Req) :
    Except JsError (List Ev) :=
  if !cfg.useJwtSession then
    .ok [.redirect 302 (errorUrl cfg "Configuration")]
  else
    match hooks.authorize with
    | none => .ok [.redirect 302 (errorUrl cfg "Configuration")]
    | some auth =>
      match auth req.body with
      | .error _ => .ok [.authorizeCall, .redirect 302 (errorUrl cfg "Configuration")]
      | .ok user =>
        let account : JsValue := .obj [("id", .str cfg.providerId), ("type", .str "credentials")]
        if !user.truthy then
          .ok [.authorizeCall,
               .redirect 302 (errorUrl cfg
                 ("CredentialsSignin&provider=" ++ encodeURIComponentM cfg.providerId))]
        else
          match hooks.signin user account req.body with
          | .error e => .error e
          | .ok v =>
            if v.isBoolFalse then
              .ok [.authorizeCall, .signinHook,
                   .redirect 302 (errorUrl cfg "AccessDenied")]
            else
              match hooks.jwtCallback (.obj [("user", user), ("account", account)]) .undefined with
              | .error e => .error e
              | .ok p =>
                match hooks.jwtEncode cfg.jwtSecret p cfg.sessionMaxAge with
                | .error e => .error e
                | .ok tok =>
                  .ok [.authorizeCall, .signinHook, .jwtHookCall, .jwtEncodeCall,
                       .setCookie (jwtSessionCookie cfg tok), .dispatchSignin,
                       .redirect 302 (orElseStr cfg.callbackUrl cfg.site)]

/-- The callback orchestrator: dispatch on the provider type; a
credentials callback on a non-POST method falls through, and any
unsupported type is answered with a plain 500 naming the type. -/
def callback (cfg : Config) (hooks : Hooks) (req : Req) :
    Except JsError (List Ev) :=
  if cfg.providerType = "discourse" then discourseBranch cfg hooks req
  else if cfg.providerType = "oauth" then oauthBranch cfg hooks req
  else if cfg.providerType = "email" then emailBranch cfg hooks req
  else if cfg.providerType = "credentials" ∧ req.method = "POST" then
    credentialsBranch cfg hooks req
  else
    .ok [.respond 500 ("Error: Callback for provider type " ++ cfg.providerType ++ " not supported")]

/-- Last element of an effect trace. -/
def lastEv : List Ev → Option Ev
  | [] => none
  | [e] => some e
  | _ :: e :: es => lastEv (e :: es)

/-- Check that an optional event is a 302 redirect. -/
def isRedirect302 : Option Ev → Bool
  | some (.redirect 302 _) => true
  | _ => false

/-- Check whether a trace sets a cookie with the given name. -/
def setsCookieNamed (t : List Ev) (n : String) : Bool :=
  t.any fun e =>
    match e with
    | .setCookie c => c.name == n
    | _ => false

/-! ## Concrete instances used to evaluate the model

A concrete stand-in for the external HMAC primitive (any deterministic
keyed function fits the model), and concrete configuration, hooks and
requests used as evaluation inputs. -/

/-- Concrete deterministic stand-in for the external hex HMAC. -/
def exHmac (secret msg : String) : String := "h(" ++ secret ++ "|" ++ msg ++ ")"

/-- Concrete configuration used for evaluation. -/
def exCfg : Config :=
  { providerType := "discourse"
    providerId := "discourse"
    providerSecret := "s3cret"
    secret := "topsecret"
    jwtSecret := "jwtsecret"
    useJwtSession := true
    sessionMaxAge := 2592000
    baseUrl := "https://base"
    site := "https://site"
    callbackUrl := some "https://cb"
    newUserPage := some "/welcome"
    sessionTokenName := "session-token"
    nonceHashName := "nonce-hash"
    sessionTokenOpts := {}
    nonceHashOpts := {}
    sessionExpiresIso := "2026-01-01T00:00:00Z"
    hmac := exHmac }

/-- Base64 payload of the concrete SSO scenario. -/
def exSso : String := ssoPayloadB64 "abc123" "https://app/x"

/-- Concrete adapter whose lookups succeed. -/
def exAdapter : Adapter :=
  { getVerificationRequest := fun _ _ => .ok (.obj [("token", .str "t")])
    deleteVerificationRequest := fun _ _ => .ok ()
    getUserByEmail := fun _ => .ok .null }

/-- Concrete user object returned by collaborators. -/
def exUser : JsValue := .obj [("name", .str "ann")]

/-- Concrete hooks whose calls all succeed and allow the signin. -/
def exHooks : Hooks :=
  { signin := fun _ _ _ => .ok (.bool true)
    jwtCallback := fun _ _ => .ok (.str "jwtpayload")
    jwtEncode := fun _ _ _ => .ok "tok123"
    callbackHandler := fun _ _ _ => .ok (exUser, { sessionToken := "sess", expires := none }, true)
    adapter := some exAdapter
    authorize := some fun _ => .ok exUser
    oauthOutcome := .result none exUser (.obj [("id", .str "1")]) (.obj [("raw", .str "r")]) }

/-- Concrete discourse callback request for the happy path: matching
signature and nonce binding cookie. -/
def exReq : Req :=
  { method := "GET"
    sso := some exSso
    sig := some (exHmac "s3cret" exSso)
    token := some "tok"
    email := some "a@b.com"
    cookies := fun n => if n == "nonce-hash" then some (exHmac "s3cret" "abc123") else none
    body := .obj [("password", .str "pw")] }

/-- Base64 payload of a complete Discourse response carrying the
identity fields. -/
def exSsoFull : String :=
  base64Encode (utf8Encode
    "nonce=abc123&return_sso_url=https://app/x&external_id=42&email=a@b.com&username=ann")

/-- Concrete discourse callback request carrying the complete payload. -/
def exReqFull : Req :=
  { exReq with
    sso := some exSsoFull
    sig := some (exHmac "s3cret" exSsoFull) }

/-- Trace of a run that did not throw. -/
def runOk : Except JsError (List Ev) → Option (List Ev)
  | .ok t => some t
  | .error _ => none

/-- Name of the error of a run that threw. -/
def runErrName : Except JsError (List Ev) → Option String
  | .error e => some e.name
  | .ok _ => none

/-- Character allowed to pass unharmed through the query-string layer:
not a separator, not an escape introducer, not a plus. -/
def qsSafeChar (c : Char) : Bool := !(c == '&' || c == '%' || c == '+')

/-- Strings whose round trip through the payload codec is exact. -/
def qsSafe (s : String) : Bool := s.data.all qsSafeChar

/-- Concrete error thrown by failing collaborators in the examples. -/
def exErr : JsError := { name := "Boom" }

/-- Hooks whose signin hook throws. -/
def exHooksSigninThrow : Hooks := { exHooks with signin := fun _ _ _ => .error exErr }

/-- Hooks whose signin hook returns the falsy number zero. -/
def exHooksSigninZero : Hooks := { exHooks with signin := fun _ _ _ => .ok (.num 0) }

/-- Hooks whose signin hook returns the boolean false. -/
def exHooksSigninFalse : Hooks := { exHooks with signin := fun _ _ _ => .ok (.bool false) }

/-- Adapter whose verification lookup finds nothing. -/
def exAdapterNoInvite : Adapter :=
  { exAdapter with getVerificationRequest := fun _ _ => .ok .null }

/-- Hooks carrying the empty-lookup adapter. -/
def exHooksNoInvite : Hooks := { exHooks with adapter := some exAdapterNoInvite }

/-- Hooks whose authorize capability throws. -/
def exHooksAuthThrow : Hooks := { exHooks with authorize := some fun _ => .error exErr }

/-- Hooks whose authorize capability returns null. -/
def exHooksAuthNull : Hooks := { exHooks with authorize := some fun _ => .ok .null }

/-- The concrete configuration with an oauth provider. -/
def exCfgO : Config := { exCfg with providerType := "oauth" }

/-- The concrete configuration with an email provider. -/
def exCfgE : Config := { exCfg with providerType := "email" }

/-- The concrete configuration with a credentials provider. -/
def exCfgC : Config := { exCfg with providerType := "credentials" }

/-- The concrete request as a POST. -/
def exReqPost : Req := { exReq with method := "POST" }

/-- A signed payload that decodes fine but carries no nonce field. -/
def exSsoNoNonce : String := base64Encode (utf8Encode "x=1&return_sso_url=u")

/-- Request presenting the nonce-free payload with a valid signature. -/
def exReqNoNonce : Req :=
  { exReq with
    sso := some exSsoNoNonce
    sig := some (exHmac "s3cret" exSsoNoNonce) }

/-- Request presenting the complete payload with its valid signature
corrupted in the first character. -/
def exReqBadSig : Req :=
  { exReqFull with
    sig := some ("X" ++ (exHmac "s3cret" exSsoFull).drop 1) }

/-- Request presenting the complete payload and a stale nonce binding. -/
def exReqWrongNonce : Req :=
  { exReqFull with
    cookies := fun n => if n == "nonce-hash" then some "stale" else none }

/-! ## Codec lemmas: the round trips behind the signed-payload claims -/

/-- Code points of characters are below the unicode bound. -/
theorem char_toNat_lt (c : Char) : c.toNat < 0x110000 := by
  rcases c.valid with h | ⟨_, h2⟩
  · exact Nat.lt_trans h (by norm_num)
  · exact h2

/-- Decoding steps never lengthen the remaining input. -/
theorem utf8Step_length (b1 : Nat) (r1 : List Nat) :
    (utf8Step b1 r1).2.length ≤ r1.length := by
  unfold utf8Step
  repeat' split
  all_goals simp_all [List.length_cons]
  all_goals omega

/-- Any fuel of at least the input length decodes like the default. -/
theorem utf8DecodeListF_fuel : ∀ (f : Nat) (l : List Nat), l.length ≤ f →
    utf8DecodeListF f l = utf8DecodeList l := by
  intro f
  induction f using Nat.strong_induction_on with
  | _ f ih =>
    intro l hl
    cases l with
    | nil => cases f <;> rfl
    | cons b1 r1 =>
      cases f with
      | zero => simp at hl
      | succ g =>
        have hs := utf8Step_length b1 r1
        have h1 : (utf8Step b1 r1).2.length ≤ g := by
          simp [List.length_cons] at hl
          omega
        rw [utf8DecodeListF, ih g (Nat.lt_succ_self g) _ h1]
        show _ = utf8DecodeListF (b1 :: r1).length (b1 :: r1)
        rw [List.length_cons, utf8DecodeListF,
          ih r1.length (by simp [List.length_cons] at hl; omega) _ hs]

/-- Unfolding of UTF-8 decoding on a nonempty byte list. -/
theorem utf8DecodeList_cons (b1 : Nat) (r1 : List Nat) :
    utf8DecodeList (b1 :: r1) =
      (utf8Step b1 r1).1 :: utf8DecodeList (utf8Step b1 r1).2 := by
  show utf8DecodeListF (b1 :: r1).length (b1 :: r1) = _
  rw [List.length_cons, utf8DecodeListF,
    utf8DecodeListF_fuel r1.length _ (utf8Step_length b1 r1)]

/-- Continuation-byte test succeeds on the bytes the encoder emits. -/
theorem isCont_true {b : Nat} (h1 : 0x80 ≤ b) (h2 : b < 0xC0) : isCont b = true := by
  simp [isCont]
  omega

/-- Decoding one encoded character consumes exactly its bytes. -/
theorem utf8DecodeList_encodeCp (c : Char) (bs : List Nat) :
    utf8DecodeList (utf8EncodeCp c.toNat ++ bs) = c :: utf8DecodeList bs := by
  have hval : c.toNat < 0x110000 := char_toNat_lt c
  have hofNat : Char.ofNat c.toNat = c := Char.ofNat_toNat c
  by_cases h1 : c.toNat < 0x80
  · simp only [utf8EncodeCp, if_pos h1, List.cons_append, List.nil_append]
    rw [utf8DecodeList_cons]
    have hstep : utf8Step c.toNat bs = (c, bs) := by
      unfold utf8Step
      rw [if_pos h1, hofNat]
    rw [hstep]
  · by_cases h2 : c.toNat < 0x800
    · simp only [utf8EncodeCp, if_neg h1, if_pos h2, List.cons_append, List.nil_append]
      rw [utf8DecodeList_cons]
      have hstep : utf8Step (0xC0 + c.toNat / 64) ((0x80 + c.toNat % 64) :: bs) = (c, bs) := by
        unfold utf8Step
        rw [if_neg (by omega), if_neg (by omega), if_pos (by omega : 0xC0 + c.toNat / 64 < 0xE0)]
        simp only
        rw [isCont_true (by omega) (by omega), if_pos rfl]
        have e5 : (0xC0 + c.toNat / 64 - 0xC0) * 64 + (0x80 + c.toNat % 64 - 0x80) = c.toNat := by
          omega
        rw [e5, hofNat]
      rw [hstep]
    · by_cases h3 : c.toNat < 0x10000
      · simp only [utf8EncodeCp, if_neg h1, if_neg h2, if_pos h3, List.cons_append,
          List.nil_append]
        rw [utf8DecodeList_cons]
        have hstep : utf8Step (0xE0 + c.toNat / 4096)
            ((0x80 + c.toNat / 64 % 64) :: (0x80 + c.toNat % 64) :: bs) = (c, bs) := by
          unfold utf8Step
          rw [if_neg (by omega), if_neg (by omega), if_neg (by omega),
            if_pos (by omega : 0xE0 + c.toNat / 4096 < 0xF0)]
          simp only
          rw [isCont_true (by omega) (by omega), isCont_true (by omega) (by omega)]
          simp only [Bool.and_self, if_true]
          have e7 : (0xE0 + c.toNat / 4096 - 0xE0) * 4096 +
              (0x80 + c.toNat / 64 % 64 - 0x80) * 64 + (0x80 + c.toNat % 64 - 0x80) = c.toNat := by
            omega
          rw [e7, hofNat]
        rw [hstep]
      · simp only [utf8EncodeCp, if_neg h1, if_neg h2, if_neg h3, List.cons_append,
          List.nil_append]
        rw [utf8DecodeList_cons]
        have hstep : utf8Step (0xF0 + c.toNat / 262144)
            ((0x80 + c.toNat / 4096 % 64) :: (0x80 + c.toNat / 64 % 64) ::
              (0x80 + c.toNat % 64) :: bs) = (c, bs) := by
          unfold utf8Step
          rw [if_neg (by omega), if_neg (by omega), if_neg (by omega), if_neg (by omega)]
          simp only
          rw [isCont_true (by omega) (by omega), isCont_true (by omega) (by omega),
            isCont_true (by omega) (by omega)]
          simp only [Bool.and_self, if_true]
          have e8 : (0xF0 + c.toNat / 262144 - 0xF0) * 262144 +
              (0x80 + c.toNat / 4096 % 64 - 0x80) * 4096 +
              (0x80 + c.toNat / 64 % 64 - 0x80) * 64 + (0x80 + c.toNat % 64 - 0x80) = c.toNat := by
            omega
          rw [e8, hofNat]
        rw [hstep]

/-- UTF-8 decoding inverts UTF-8 encoding on character lists. -/
theorem utf8DecodeList_encodeList (cs : List Char) :
    utf8DecodeList (utf8EncodeList cs) = cs := by
  induction cs with
  | nil => rfl
  | cons c cs ih => rw [utf8EncodeList, utf8DecodeList_encodeCp, ih]

/-- UTF-8 decoding inverts UTF-8 encoding on strings. -/
theorem utf8Decode_encode (s : String) : utf8Decode (utf8Encode s) = s := by
  rw [utf8Encode, utf8Decode, utf8DecodeList_encodeList]

/-- Table fact: decoding a base64 character recovers its six-bit value. -/
theorem b64_tab : ∀ k, k < 64 → b64Val (b64Char k) = some k := by decide

/-- Padding characters are skipped by the base64 value map. -/
theorem b64Val_pad : b64Val '=' = none := by decide

/-- UTF-8 encoded bytes of a valid code point are below 256. -/
theorem utf8EncodeCp_lt (n : Nat) (hn : n < 0x110000) :
    ∀ b ∈ utf8EncodeCp n, b < 256 := by
  intro b hb
  unfold utf8EncodeCp at hb
  repeat' split at hb
  all_goals simp only [List.mem_cons, List.mem_singleton, List.not_mem_nil] at hb
  all_goals rcases hb with h | h | h | h | h <;> first | omega | exact absurd h (by simp)

/-- UTF-8 encoded bytes of a character list are below 256. -/
theorem utf8EncodeList_lt (cs : List Char) : ∀ b ∈ utf8EncodeList cs, b < 256 := by
  induction cs with
  | nil => intro b hb; simp [utf8EncodeList] at hb
  | cons c cs ih =>
    intro b hb
    rw [utf8EncodeList] at hb
    rcases List.mem_append.mp hb with h | h
    · exact utf8EncodeCp_lt c.toNat (char_toNat_lt c) b h
    · exact ih b h

/-- Base64 decoding inverts base64 encoding on byte lists. -/
theorem sextets_bytes_rt : ∀ bs : List Nat, (∀ b ∈ bs, b < 256) →
    sextetsToBytes ((bytesToB64 bs).filterMap b64Val) = bs
  | [], _ => rfl
  | [b1], h => by
    have hb1 : b1 < 256 := h b1 (by simp)
    have t1 : b64Val (b64Char (b1 / 4)) = some (b1 / 4) := b64_tab _ (by omega)
    have t2 : b64Val (b64Char (b1 % 4 * 16)) = some (b1 % 4 * 16) := b64_tab _ (by omega)
    simp only [bytesToB64, List.filterMap_cons, t1, t2, b64Val_pad, List.filterMap_nil,
      sextetsToBytes, List.cons.injEq, and_true]
    omega
  | [b1, b2], h => by
    have hb1 : b1 < 256 := h b1 (by simp)
    have hb2 : b2 < 256 := h b2 (by simp)
    have t1 : b64Val (b64Char (b1 / 4)) = some (b1 / 4) := b64_tab _ (by omega)
    have t2 : b64Val (b64Char (b1 % 4 * 16 + b2 / 16)) = some (b1 % 4 * 16 + b2 / 16) :=
      b64_tab _ (by omega)
    have t3 : b64Val (b64Char (b2 % 16 * 4)) = some (b2 % 16 * 4) := b64_tab _ (by omega)
    simp only [bytesToB64, List.filterMap_cons, t1, t2, t3, b64Val_pad, List.filterMap_nil,
      sextetsToBytes, List.cons.injEq, and_true]
    omega
  | b1 :: b2 :: b3 :: r4 :: rest, h => by
    have hb1 : b1 < 256 := h b1 (by simp)
    have hb2 : b2 < 256 := h b2 (by simp)
    have hb3 : b3 < 256 := h b3 (by simp)
    have t1 : b64Val (b64Char (b1 / 4)) = some (b1 / 4) := b64_tab _ (by omega)
    have t2 : b64Val (b64Char (b1 % 4 * 16 + b2 / 16)) = some (b1 % 4 * 16 + b2 / 16) :=
      b64_tab _ (by omega)
    have t3 : b64Val (b64Char (b2 % 16 * 4 + b3 / 64)) = some (b2 % 16 * 4 + b3 / 64) :=
      b64_tab _ (by omega)
    have t4 : b64Val (b64Char (b3 % 64)) = some (b3 % 64) := b64_tab _ (by omega)
    have ihr := sextets_bytes_rt (r4 :: rest) (fun b hb => h b (by simp [hb]))
    simp only [bytesToB64, List.filterMap_cons, t1, t2, t3, t4, sextetsToBytes, ihr,
      List.cons.injEq, and_true]
    omega
  | [b1, b2, b3], h => by
    have hb1 : b1 < 256 := h b1 (by simp)
    have hb2 : b2 < 256 := h b2 (by simp)
    have hb3 : b3 < 256 := h b3 (by simp)
    have t1 : b64Val (b64Char (b1 / 4)) = some (b1 / 4) := b64_tab _ (by omega)
    have t2 : b64Val (b64Char (b1 % 4 * 16 + b2 / 16)) = some (b1 % 4 * 16 + b2 / 16) :=
      b64_tab _ (by omega)
    have t3 : b64Val (b64Char (b2 % 16 * 4 + b3 / 64)) = some (b2 % 16 * 4 + b3 / 64) :=
      b64_tab _ (by omega)
    have t4 : b64Val (b64Char (b3 % 64)) = some (b3 % 64) := b64_tab _ (by omega)
    simp only [bytesToB64, List.filterMap_cons, t1, t2, t3, t4, b64Val_pad,
      List.filterMap_nil, sextetsToBytes, List.cons.injEq, and_true]
    omega

/-- Base64 round trip over the UTF-8 bytes of any string. -/
theorem base64_rt_utf8 (s : String) :
    base64Decode (base64Encode (utf8Encode s)) = utf8Encode s := by
  unfold base64Encode base64Decode
  exact sextets_bytes_rt _ (utf8EncodeList_lt s.data)

/-- Alphabet characters are never the percent sign. -/
theorem b64Char_ne_pct (k : Nat) : b64Char k ≠ '%' := by
  rcases Nat.lt_or_ge k 64 with h | h
  · have t : ∀ m, m < 64 → b64Char m ≠ '%' := by decide
    exact t k h
  · unfold b64Char
    rw [List.getD_eq_default]
    · decide
    · have : b64Alphabet.length = 64 := by decide
      omega

/-- Base64 encodings never contain a percent sign. -/
theorem bytesToB64_no_pct : ∀ bs : List Nat, '%' ∉ bytesToB64 bs
  | [] => by simp [bytesToB64]
  | [b1] => by
    simp only [bytesToB64, List.mem_cons, List.not_mem_nil, or_false]
    rintro (h | h | h | h) <;>
      first
        | exact b64Char_ne_pct _ h.symm
        | exact absurd h (by decide)
  | [b1, b2] => by
    simp only [bytesToB64, List.mem_cons, List.not_mem_nil, or_false]
    rintro (h | h | h | h) <;>
      first
        | exact b64Char_ne_pct _ h.symm
        | exact absurd h (by decide)
  | b1 :: b2 :: b3 :: rest => by
    simp only [bytesToB64, List.mem_cons]
    rintro (h | h | h | h | h) <;>
      first
        | exact b64Char_ne_pct _ h.symm
        | exact bytesToB64_no_pct rest h

/-- Percent-decoding steps never lengthen the remaining input. -/
theorem pctStep_length (c : Char) (rest : List Char) :
    (pctStep c rest).2.length ≤ rest.length := by
  unfold pctStep
  repeat' split
  all_goals simp_all [List.length_cons]
  all_goals omega

/-- Any fuel of at least the input length percent-decodes alike. -/
theorem pctDecodeListF_fuel : ∀ (f : Nat) (l : List Char), l.length ≤ f →
    pctDecodeListF f l = pctDecodeList l := by
  intro f
  induction f using Nat.strong_induction_on with
  | _ f ih =>
    intro l hl
    cases l with
    | nil => cases f <;> rfl
    | cons c rest =>
      cases f with
      | zero => simp at hl
      | succ g =>
        have hs := pctStep_length c rest
        have h1 : (pctStep c rest).2.length ≤ g := by
          simp [List.length_cons] at hl
          omega
        rw [pctDecodeListF, ih g (Nat.lt_succ_self g) _ h1]
        show _ = pctDecodeListF (c :: rest).length (c :: rest)
        rw [List.length_cons, pctDecodeListF,
          ih rest.length (by simp [List.length_cons] at hl; omega) _ hs]

/-- Unfolding of percent-decoding on a nonempty character list. -/
theorem pctDecodeList_cons (c : Char) (rest : List Char) :
    pctDecodeList (c :: rest) =
      (pctStep c rest).1 ++ pctDecodeList (pctStep c rest).2 := by
  show pctDecodeListF (c :: rest).length (c :: rest) = _
  rw [List.length_cons, pctDecodeListF,
    pctDecodeListF_fuel rest.length _ (pctStep_length c rest)]

/-- Percent-decoding is the identity on inputs with no percent sign. -/
theorem pctDecodeList_id : ∀ cs : List Char, '%' ∉ cs → pctDecodeList cs = cs := by
  intro cs
  induction cs with
  | nil => intro _; rfl
  | cons c rest ih =>
    intro h
    have hc : c ≠ '%' := fun e => h (e ▸ List.mem_cons_self c rest)
    have hstep : pctStep c rest = ([c], rest) := by
      unfold pctStep
      rw [if_neg hc]
    rw [pctDecodeList_cons, hstep, ih (fun hm => h (List.mem_cons_of_mem c hm))]
    rfl

/-- The callback's url-decoding leaves a base64 encoding unchanged. -/
theorem decodeURIComponentM_b64 (bs : List Nat) :
    decodeURIComponentM (base64Encode bs) = base64Encode bs := by
  unfold decodeURIComponentM base64Encode
  rw [pctDecodeList_id _ (bytesToB64_no_pct bs)]

/-- Unescaping steps never lengthen the remaining input. -/
theorem qsStep_length (c : Char) (rest : List Char) :
    (qsStep c rest).2.length ≤ rest.length := by
  unfold qsStep
  repeat' split
  all_goals simp_all [List.length_cons]
  all_goals omega

/-- Any fuel of at least the input length unescapes alike. -/
theorem qsUnescapeListF_fuel : ∀ (f : Nat) (l : List Char), l.length ≤ f →
    qsUnescapeListF f l = qsUnescapeList l := by
  intro f
  induction f using Nat.strong_induction_on with
  | _ f ih =>
    intro l hl
    cases l with
    | nil => cases f <;> rfl
    | cons c rest =>
      cases f with
      | zero => simp at hl
      | succ g =>
        have hs := qsStep_length c rest
        have h1 : (qsStep c rest).2.length ≤ g := by
          simp [List.length_cons] at hl
          omega
        rw [qsUnescapeListF, ih g (Nat.lt_succ_self g) _ h1]
        show _ = qsUnescapeListF (c :: rest).length (c :: rest)
        rw [List.length_cons, qsUnescapeListF,
          ih rest.length (by simp [List.length_cons] at hl; omega) _ hs]

/-- Unfolding of unescaping on a nonempty character list. -/
theorem qsUnescapeList_cons (c : Char) (rest : List Char) :
    qsUnescapeList (c :: rest) =
      (qsStep c rest).1 ++ qsUnescapeList (qsStep c rest).2 := by
  show qsUnescapeListF (c :: rest).length (c :: rest) = _
  rw [List.length_cons, qsUnescapeListF,
    qsUnescapeListF_fuel rest.length _ (qsStep_length c rest)]

/-- Unescaping is the identity when no percent sign or plus occurs. -/
theorem qsUnescapeList_id : ∀ cs : List Char, '%' ∉ cs → '+' ∉ cs →
    qsUnescapeList cs = cs := by
  intro cs
  induction cs with
  | nil => intro _ _; rfl
  | cons c rest ih =>
    intro hp hpl
    have hc : c ≠ '%' := fun e => hp (e ▸ List.mem_cons_self c rest)
    have hc2 : c ≠ '+' := fun e => hpl (e ▸ List.mem_cons_self c rest)
    have hstep : qsStep c rest = ([c], rest) := by
      unfold qsStep
      rw [if_neg hc2, if_neg hc]
    rw [qsUnescapeList_cons, hstep,
      ih (fun hm => hp (List.mem_cons_of_mem c hm)) (fun hm => hpl (List.mem_cons_of_mem c hm))]
    rfl

/-- Splitting never yields the empty list of segments. -/
theorem splitOnChar_ne_nil (sep : Char) : ∀ l : List Char, splitOnChar sep l ≠ []
  | [] => by simp [splitOnChar]
  | c :: rest => by
    rw [splitOnChar]
    cases h : splitOnChar sep rest with
    | nil => simp
    | cons seg segs =>
      by_cases hc : c = sep <;> simp [hc]

/-- A list without the separator is a single segment. -/
theorem splitOnChar_not_mem (sep : Char) : ∀ xs : List Char, sep ∉ xs →
    splitOnChar sep xs = [xs]
  | [], _ => rfl
  | x :: xs, h => by
    have hx : x ≠ sep := fun e => h (e ▸ List.mem_cons_self x xs)
    have ih := splitOnChar_not_mem sep xs (fun hm => h (List.mem_cons_of_mem x hm))
    rw [splitOnChar, ih]
    simp [hx]

/-- Splitting at a separator after a separator-free prefix. -/
theorem splitOnChar_append (sep : Char) : ∀ xs ys : List Char, sep ∉ xs →
    splitOnChar sep (xs ++ sep :: ys) = xs :: splitOnChar sep ys
  | [], ys, _ => by
    simp only [List.nil_append]
    rw [splitOnChar]
    cases h : splitOnChar sep ys with
    | nil => exact absurd h (splitOnChar_ne_nil sep ys)
    | cons seg segs => simp
  | x :: xs, ys, h => by
    have hx : x ≠ sep := fun e => h (e ▸ List.mem_cons_self x xs)
    have ih := splitOnChar_append sep xs ys (fun hm => h (List.mem_cons_of_mem x hm))
    simp only [List.cons_append]
    rw [splitOnChar, ih]
    simp [hx]

/-- A segment without an equals sign is all key. -/
theorem splitFirstEq_no : ∀ xs : List Char, '=' ∉ xs → splitFirstEq xs = (xs, [])
  | [], _ => rfl
  | c :: rest, h => by
    have hc : c ≠ '=' := fun e => h (e ▸ List.mem_cons_self c rest)
    have ih := splitFirstEq_no rest (fun hm => h (List.mem_cons_of_mem c hm))
    rw [splitFirstEq, if_neg hc, ih]

/-- Splitting a segment at the equals sign after an equals-free key. -/
theorem splitFirstEq_append : ∀ xs ys : List Char, '=' ∉ xs →
    splitFirstEq (xs ++ '=' :: ys) = (xs, ys)
  | [], ys, _ => by simp [splitFirstEq]
  | c :: rest, ys, h => by
    have hc : c ≠ '=' := fun e => h (e ▸ List.mem_cons_self c rest)
    have ih := splitFirstEq_append rest ys (fun hm => h (List.mem_cons_of_mem c hm))
    simp only [List.cons_append]
    rw [splitFirstEq, if_neg hc, ih]

/-- Unpacking of the safety predicate into the three exclusions. -/
theorem qsSafe_spec {s : String} (h : qsSafe s = true) :
    '&' ∉ s.data ∧ '%' ∉ s.data ∧ '+' ∉ s.data := by
  refine ⟨fun hm => ?_, fun hm => ?_, fun hm => ?_⟩ <;>
  · have := (List.all_eq_true.mp h) _ hm
    simp [qsSafeChar] at this

/-- Parsing the initiation payload recovers exactly the two fields when
both are free of separators and escapes. -/
theorem qsParse_payload (n u : String) (hn : qsSafe n = true) (hu : qsSafe u = true) :
    qsParse (ssoPayload n u) = [("nonce", n), ("return_sso_url", u)] := by
  obtain ⟨hn1, hn2, hn3⟩ := qsSafe_spec hn
  obtain ⟨hu1, hu2, hu3⟩ := qsSafe_spec hu
  have hxs : ('&' : Char) ∉ (("nonce=" : String).data ++ n.data) := by
    intro hm
    rcases List.mem_append.mp hm with h | h
    · exact absurd h (by decide)
    · exact hn1 h
  have hys : ('&' : Char) ∉ (("return_sso_url=" : String).data ++ u.data) := by
    intro hm
    rcases List.mem_append.mp hm with h | h
    · exact absurd h (by decide)
    · exact hu1 h
  have hd : (ssoPayload n u).data
      = (("nonce=" : String).data ++ n.data) ++
        '&' :: (("return_sso_url=" : String).data ++ u.data) := by
    show ("nonce=" ++ n ++ "&return_sso_url=" ++ u).data = _
    simp only [String.data_append, List.append_assoc]
    rfl
  have hsplit : splitOnChar '&' (ssoPayload n u).data
      = (("nonce=" : String).data ++ n.data) ::
        [(("return_sso_url=" : String).data ++ u.data)] := by
    rw [hd, splitOnChar_append '&' _ _ hxs, splitOnChar_not_mem '&' _ hys]
  have hne1 : (("nonce=" : String).data ++ n.data) ≠ [] := by
    intro h
    have h2 := congrArg List.length h
    rw [List.length_append, List.length_nil] at h2
    have h3 : ("nonce=" : String).data.length = 6 := by decide
    omega
  have hne2 : (("return_sso_url=" : String).data ++ u.data) ≠ [] := by
    intro h
    have h2 := congrArg List.length h
    rw [List.length_append, List.length_nil] at h2
    have h3 : ("return_sso_url=" : String).data.length = 15 := by decide
    omega
  have hA : splitFirstEq (("nonce=" : String).data ++ n.data)
      = (("nonce" : String).data, n.data) := by
    have e : ("nonce=" : String).data ++ n.data = ("nonce" : String).data ++ '=' :: n.data := rfl
    rw [e, splitFirstEq_append _ _ (by decide)]
  have hB : splitFirstEq (("return_sso_url=" : String).data ++ u.data)
      = (("return_sso_url" : String).data, u.data) := by
    have e : ("return_sso_url=" : String).data ++ u.data
        = ("return_sso_url" : String).data ++ '=' :: u.data := rfl
    rw [e, splitFirstEq_append _ _ (by decide)]
  have hkey1 : qsUnescapeList ("nonce" : String).data = ("nonce" : String).data :=
    qsUnescapeList_id _ (by decide) (by decide)
  have hkey2 : qsUnescapeList ("return_sso_url" : String).data
      = ("return_sso_url" : String).data :=
    qsUnescapeList_id _ (by decide) (by decide)
  have hval1 : qsUnescapeList n.data = n.data := qsUnescapeList_id _ hn2 hn3
  have hval2 : qsUnescapeList u.data = u.data := qsUnescapeList_id _ hu2 hu3
  unfold qsParse
  rw [hsplit]
  rw [List.filter_cons, List.filter_cons, List.filter_nil]
  rw [show (("nonce=" : String).data ++ n.data).isEmpty = false by
    simp [List.isEmpty_iff, hne1]]
  rw [show (("return_sso_url=" : String).data ++ u.data).isEmpty = false by
    simp [List.isEmpty_iff, hne2]]
  simp only [Bool.not_false, if_true, List.map_cons, List.map_nil, hA, hB,
    hkey1, hkey2, hval1, hval2]

/-- Decoding the callback side of the initiation payload recovers the
two fields exactly when both are safe. -/
theorem ssoDecode_payloadB64 (n u : String) (hn : qsSafe n = true) (hu : qsSafe u = true) :
    ssoDecode (ssoPayloadB64 n u) = [("nonce", n), ("return_sso_url", u)] := by
  unfold ssoDecode ssoPayloadB64
  rw [base64_rt_utf8 (ssoPayload n u), utf8Decode_encode, qsParse_payload n u hn hu]

/-- The callback accepts the signature the initiation computed, for any
keyed hash function. -/
theorem ssoVerify_sig (hm : String → String → String) (secret n u : String) :
    ssoVerify hm secret (ssoPayloadB64 n u) (ssoHexSig hm secret n u) = true := by
  unfold ssoVerify ssoHexSig
  unfold ssoPayloadB64
  rw [decodeURIComponentM_b64]
  simp

set_option maxRecDepth 100000

/-- C1 (amended): for any keyed hash function, secret, nonce and return
URL in which no ampersand, percent or plus occurs, the initiation's
base64 payload and hex signature are accepted by the callback's
signature check, and the callback's decode recovers exactly the
original nonce and return URL fields. -/
theorem C1_signed_payload_roundtrip (hm : String → String → String)
    (secret n u : String) (hn : qsSafe n = true) (hu : qsSafe u = true) :
    ssoVerify hm secret (ssoPayloadB64 n u) (ssoHexSig hm secret n u) = true ∧
    qsGetJs (ssoDecode (ssoPayloadB64 n u)) "nonce" = .str n ∧
    qsGetJs (ssoDecode (ssoPayloadB64 n u)) "return_sso_url" = .str u := by
  refine ⟨ssoVerify_sig hm secret n u, ?_, ?_⟩ <;>
    rw [ssoDecode_payloadB64 n u hn hu] <;>
      simp [qsGetJs, qsGetAll, List.filter]

/-- C1 witness: the concrete scenario with secret s3cret, nonce abc123
and return URL https://app/x satisfies the safety hypotheses and the
round trip. -/
theorem C1_signed_payload_roundtrip_witness :
    qsSafe "abc123" = true ∧ qsSafe "https://app/x" = true ∧
    (ssoVerify exHmac "s3cret" (ssoPayloadB64 "abc123" "https://app/x")
        (ssoHexSig exHmac "s3cret" "abc123" "https://app/x") = true ∧
      qsGetJs (ssoDecode (ssoPayloadB64 "abc123" "https://app/x")) "nonce" = .str "abc123" ∧
      qsGetJs (ssoDecode (ssoPayloadB64 "abc123" "https://app/x")) "return_sso_url" =
        .str "https://app/x") :=
  ⟨by decide, by decide,
    C1_signed_payload_roundtrip exHmac "s3cret" "abc123" "https://app/x"
      (by decide) (by decide)⟩

/-- C1 counterexample: with a return URL containing an ampersand the
callback accepts the initiation's signature but does not decode the
original return URL field, so the unconditional round trip claimed for
any nonce, URL and secret fails. -/
theorem C1_counterexample :
    ssoVerify exHmac "s3cret" (ssoPayloadB64 "abc123" "a&b")
        (ssoHexSig exHmac "s3cret" "abc123" "a&b") = true ∧
    qsGetJs (ssoDecode (ssoPayloadB64 "abc123" "a&b")) "return_sso_url" ≠ .str "a&b" := by
  constructor
  · exact ssoVerify_sig exHmac "s3cret" "abc123" "a&b"
  · have e : qsGetJs (ssoDecode (ssoPayloadB64 "abc123" "a&b")) "return_sso_url" =
        .str "a" := by rfl
    rw [e]
    intro h
    injection h with h2
    exact absurd h2 (by decide)

/-- C10: a credentials callback on a non-POST method, or a callback for
a provider type outside the four supported ones, is answered with a
plain 500 response naming the provider type; the trace holds that
single response, so no redirect happens, no cookie is set and no hook
or collaborator is invoked. -/
theorem C10_unsupported_type_500 (cfg : Config) (hooks : Hooks) (req : Req)
    (h : (cfg.providerType = "credentials" ∧ req.method ≠ "POST") ∨
      (cfg.providerType ≠ "discourse" ∧ cfg.providerType ≠ "oauth" ∧
        cfg.providerType ≠ "email" ∧ cfg.providerType ≠ "credentials")) :
    callback cfg hooks req =
      .ok [.respond 500
        ("Error: Callback for provider type " ++ cfg.providerType ++ " not supported")] := by
  rcases h with ⟨h1, h2⟩ | ⟨h1, h2, h3, h4⟩
  · simp [callback, h1, h2]
  · simp [callback, h1, h2, h3, h4]

/-- C10 witness: a credentials provider reached with a GET method, on
the concrete configuration. -/
theorem C10_unsupported_type_500_witness :
    (exCfgC.providerType = "credentials" ∧ exReq.method ≠ "POST") ∧
    callback exCfgC exHooks exReq =
      .ok [.respond 500
        ("Error: Callback for provider type " ++ exCfgC.providerType ++ " not supported")] :=
  ⟨⟨rfl, by decide⟩,
    C10_unsupported_type_500 exCfgC exHooks exReq (Or.inl ⟨rfl, by decide⟩)⟩

/-- C7: when the presented signature differs from the HMAC recomputed
over the url-decoded sso value, the discourse branch answers with the
error redirect alone: the payload decode (base64, utf8, query-string
parse) is never performed, as witnessed by the absence of the decode
event from the trace. -/
theorem C7_decode_only_after_verify (cfg : Config) (hooks : Hooks) (req : Req)
    (sso sig : String)
    (hsso : req.sso = some sso) (hsig : req.sig = some sig)
    (hne : sso ≠ "") (hne2 : sig ≠ "")
    (hbad : sig ≠ cfg.hmac cfg.providerSecret (decodeURIComponentM sso)) :
    discourseBranch cfg hooks req = .ok [.redirect 302 (errorUrl cfg "oAuthCallback")] ∧
    ∀ t, discourseBranch cfg hooks req = .ok t → Ev.decodePayload ∉ t := by
  have hmain : discourseBranch cfg hooks req =
      .ok [.redirect 302 (errorUrl cfg "oAuthCallback")] := by
    unfold discourseBranch
    rw [hsso, hsig]
    have c1 : (sso == "" || sig == "") = false := by simp [hne, hne2]
    have c2 : ssoVerify cfg.hmac cfg.providerSecret sso sig = false := by
      simp [ssoVerify, hbad]
    simp [c1, c2]
  refine ⟨hmain, fun t ht => ?_⟩
  rw [hmain] at ht
  cases ht
  simp

/-- C7 witness: the complete concrete payload with a corrupted
signature is rejected without the decode event. -/
theorem C7_decode_only_after_verify_witness :
    (discourseBranch exCfg exHooks exReqBadSig =
        .ok [.redirect 302 (errorUrl exCfg "oAuthCallback")] ∧
      ∀ t, discourseBranch exCfg exHooks exReqBadSig = .ok t → Ev.decodePayload ∉ t) :=
  C7_decode_only_after_verify exCfg exHooks exReqBadSig exSsoFull
    ("X" ++ (exHmac "s3cret" exSsoFull).drop 1)
    rfl rfl (by decide) (by decide) (by decide)

/-- Final event of a trace built by appending a closing event. -/
theorem lastEv_concat : ∀ (xs : List Ev) (e : Ev), lastEv (xs ++ [e]) = some e
  | [], e => rfl
  | [x], e => rfl
  | x :: y :: ys, e => by
    show lastEv (y :: (ys ++ [e])) = some e
    exact lastEv_concat (y :: ys) e

/-- C4 (amended): a callback failing the signature check and one
failing the nonce check produce the same status and redirect target
(302 to the oAuthCallback error page) and neither sets a session
cookie.  (The two responses are not byte-identical: the nonce path
additionally clears the nonce cookie; see the counterexample.) -/
theorem C4_error_uniformity (cfg : Config) (hooks : Hooks) (req : Req) (sso sig : String)
    (hsso : req.sso = some sso) (hsig : req.sig = some sig)
    (hne : sso ≠ "") (hne2 : sig ≠ "")
    (hnames : cfg.nonceHashName ≠ cfg.sessionTokenName)
    (hcause : sig ≠ cfg.hmac cfg.providerSecret (decodeURIComponentM sso) ∨
      (sig = cfg.hmac cfg.providerSecret (decodeURIComponentM sso) ∧
        ∃ n, qsGetJs (ssoDecode sso) "nonce" = .str n ∧
          (req.cookies cfg.nonceHashName ≠ some (cfg.hmac cfg.providerSecret n) ∨
            cfg.hmac cfg.providerSecret n = "" ∨
            optFalsy (req.cookies cfg.nonceHashName) = true))) :
    ∃ t, discourseBranch cfg hooks req = .ok t ∧
      lastEv t = some (.redirect 302 (errorUrl cfg "oAuthCallback")) ∧
      setsCookieNamed t cfg.sessionTokenName = false := by
  have hclear : ((clearNonceCookie cfg).name == cfg.sessionTokenName) = false := by
    simp [clearNonceCookie]
    exact hnames
  rcases hcause with hbad | ⟨hgood, n, hn, hmis⟩
  · refine ⟨[.redirect 302 (errorUrl cfg "oAuthCallback")], ?_, rfl, rfl⟩
    exact (C7_decode_only_after_verify cfg hooks req sso sig hsso hsig hne hne2 hbad).1
  · refine ⟨[.decodePayload, .setCookie (clearNonceCookie cfg),
      .redirect 302 (errorUrl cfg "oAuthCallback")], ?_, rfl, ?_⟩
    · unfold discourseBranch
      rw [hsso, hsig]
      have c1 : (sso == "" || sig == "") = false := by simp [hne, hne2]
      have c2 : ssoVerify cfg.hmac cfg.providerSecret sso sig = true := by
        simp [ssoVerify, hgood]
      have c3 : (decide (req.cookies cfg.nonceHashName ≠
            some (cfg.hmac cfg.providerSecret n)) ||
          cfg.hmac cfg.providerSecret n == "" ||
          optFalsy (req.cookies cfg.nonceHashName)) = true := by
        rcases hmis with h | h | h
        · simp [h]
        · simp [h]
        · simp [h]
      simp only [c1, Bool.false_eq_true, if_false, c2, Bool.not_true, hn, c3, if_true]
    · simp [setsCookieNamed, hclear]

/-- C4 witness: the corrupted-signature request and the stale-binding
request both land on the oAuthCallback error redirect with no session
cookie. -/
theorem C4_error_uniformity_witness :
    (∃ t, discourseBranch exCfg exHooks exReqBadSig = .ok t ∧
      lastEv t = some (.redirect 302 (errorUrl exCfg "oAuthCallback")) ∧
      setsCookieNamed t exCfg.sessionTokenName = false) ∧
    (∃ t, discourseBranch exCfg exHooks exReqWrongNonce = .ok t ∧
      lastEv t = some (.redirect 302 (errorUrl exCfg "oAuthCallback")) ∧
      setsCookieNamed t exCfg.sessionTokenName = false) :=
  ⟨C4_error_uniformity exCfg exHooks exReqBadSig exSsoFull
      ("X" ++ (exHmac "s3cret" exSsoFull).drop 1) rfl rfl (by decide) (by decide) (by decide)
      (Or.inl (by decide)),
    C4_error_uniformity exCfg exHooks exReqWrongNonce exSsoFull
      (exHmac "s3cret" exSsoFull) rfl rfl (by decide) (by decide) (by decide)
      (Or.inr ⟨by decide, "abc123", by rfl, Or.inl (by decide)⟩)⟩

/-- C4 counterexample: the outward responses of the two failures are
not identical — the nonce-mismatch response carries the Set-Cookie
directive clearing the nonce binding, which the bad-signature response
lacks, so the bad-signature and nonce-mismatch responses are
distinguishable at the header level. -/
theorem C4_counterexample :
    (runOk (discourseBranch exCfg exHooks exReqBadSig)).map
        (fun t => setsCookieNamed t exCfg.nonceHashName) = some false ∧
    (runOk (discourseBranch exCfg exHooks exReqWrongNonce)).map
        (fun t => setsCookieNamed t exCfg.nonceHashName) = some true := by
  constructor <;> decide

/-- C2 (amended): in every SSO callback in which signature verification
succeeds and the decoded payload carries a (single) nonce field, the
nonce-binding cookie is cleared — empty value, maxAge minus one under
the default cookie options — on every non-throwing path, whether or not
the presented nonce's hash matches the stored binding; and if the
stored binding is absent or empty, or the recomputed hash is empty, the
callback fails with the nonce-mismatch error redirect.  (When the nonce
field is absent the branch instead throws; see the counterexample.) -/
theorem C2_nonce_consumption (cfg : Config) (hooks : Hooks) (req : Req)
    (sso sig n : String)
    (hsso : req.sso = some sso) (hsig : req.sig = some sig)
    (hne : sso ≠ "") (hne2 : sig ≠ "")
    (hgood : sig = cfg.hmac cfg.providerSecret (decodeURIComponentM sso))
    (hn : qsGetJs (ssoDecode sso) "nonce" = .str n)
    (hopts : cfg.nonceHashOpts.maxAge = none) :
    (clearNonceCookie cfg).value = "" ∧
    (clearNonceCookie cfg).maxAge = some (-1) ∧
    (∀ t, discourseBranch cfg hooks req = .ok t →
      Ev.setCookie (clearNonceCookie cfg) ∈ t) ∧
    ((req.cookies cfg.nonceHashName = none ∨ req.cookies cfg.nonceHashName = some "" ∨
        cfg.hmac cfg.providerSecret n = "") →
      discourseBranch cfg hooks req =
        .ok [.decodePayload, .setCookie (clearNonceCookie cfg),
          .redirect 302 (errorUrl cfg "oAuthCallback")]) := by
  have c1 : (sso == "" || sig == "") = false := by simp [hne, hne2]
  have c2 : ssoVerify cfg.hmac cfg.providerSecret sso sig = true := by
    simp [ssoVerify, hgood]
  refine ⟨rfl, by simp [clearNonceCookie, hopts], ?_, ?_⟩
  · intro t ht
    unfold discourseBranch at ht
    rw [hsso, hsig] at ht
    simp only [c1, Bool.false_eq_true, if_false, c2, Bool.not_true, hn] at ht
    repeat' split at ht
    all_goals first
      | (cases ht; simp)
      | exact Except.noConfusion ht
  · intro habs
    unfold discourseBranch
    rw [hsso, hsig]
    have c3 : (decide (req.cookies cfg.nonceHashName ≠
          some (cfg.hmac cfg.providerSecret n)) ||
        cfg.hmac cfg.providerSecret n == "" ||
        optFalsy (req.cookies cfg.nonceHashName)) = true := by
      rcases habs with h | h | h
      · simp [h]
      · simp [h, optFalsy]
      · simp [h]
    simp only [c1, Bool.false_eq_true, if_false, c2, Bool.not_true, hn, c3, if_true]

/-- C2 witness: the concrete verified request carries the nonce, and
the clearing directive with maxAge minus one is on the trace of every
non-throwing run; an absent binding forces the error redirect. -/
theorem C2_nonce_consumption_witness :
    (clearNonceCookie exCfg).value = "" ∧
    (clearNonceCookie exCfg).maxAge = some (-1) ∧
    (∀ t, discourseBranch exCfg exHooks exReqFull = .ok t →
      Ev.setCookie (clearNonceCookie exCfg) ∈ t) ∧
    ((exReqFull.cookies exCfg.nonceHashName = none ∨
        exReqFull.cookies exCfg.nonceHashName = some "" ∨
        exCfg.hmac exCfg.providerSecret "abc123" = "") →
      discourseBranch exCfg exHooks exReqFull =
        .ok [.decodePayload, .setCookie (clearNonceCookie exCfg),
          .redirect 302 (errorUrl exCfg "oAuthCallback")]) :=
  C2_nonce_consumption exCfg exHooks exReqFull exSsoFull
    (exHmac "s3cret" exSsoFull) "abc123"
    rfl rfl (by decide) (by decide) (by decide) (by rfl) rfl

/-- C2 counterexample: a signed payload whose signature verifies but
which carries no nonce field makes the branch throw an uncaught
TypeError (the hash update of an undefined nonce), so the consumption
attempt never clears the cookie and no nonce-mismatch redirect is
produced, contradicting the claim for every verified callback. -/
theorem C2_counterexample :
    ssoVerify exHmac "s3cret" exSsoNoNonce (exHmac "s3cret" exSsoNoNonce) = true ∧
    runErrName (callback exCfg exHooks exReqNoNonce) = some "TypeError" := by
  constructor <;> decide

/-- C5: on the credentials branch, a throwing or rejecting authorize
capability yields the Configuration error redirect (never the
invalid-credentials one), and a falsy return yields the
CredentialsSignin redirect naming the provider; in both cases the
trace shows that no token is encoded and no cookie is set. -/
theorem C5_credentials_error_discrimination (cfg : Config) (hooks : Hooks) (req : Req)
    (authf : JsValue → Except JsError JsValue)
    (htype : cfg.providerType = "credentials") (hpost : req.method = "POST")
    (hjwt : cfg.useJwtSession = true) (hauth : hooks.authorize = some authf) :
    (∀ e, authf req.body = .error e →
      callback cfg hooks req =
        .ok [.authorizeCall, .redirect 302 (errorUrl cfg "Configuration")]) ∧
    (∀ v, authf req.body = .ok v → v.truthy = false →
      callback cfg hooks req =
        .ok [.authorizeCall, .redirect 302 (errorUrl cfg
          ("CredentialsSignin&provider=" ++ encodeURIComponentM cfg.providerId))]) := by
  have hdis : callback cfg hooks req = credentialsBranch cfg hooks req := by
    unfold callback
    rw [if_neg (by rw [htype]; decide), if_neg (by rw [htype]; decide),
      if_neg (by rw [htype]; decide), if_pos ⟨htype, hpost⟩]
  constructor
  · intro e he
    rw [hdis]
    unfold credentialsBranch
    rw [hauth]
    simp only [hjwt, Bool.not_true, Bool.false_eq_true, if_false, he]
  · intro v hv htr
    rw [hdis]
    unfold credentialsBranch
    rw [hauth]
    simp only [hjwt, Bool.not_true, Bool.false_eq_true, if_false, hv, htr,
      Bool.not_false, if_true]

/-- C5 witness: a throwing authorize capability lands on Configuration,
and a null-returning one lands on CredentialsSignin, concretely. -/
theorem C5_credentials_error_discrimination_witness :
    callback exCfgC exHooksAuthThrow exReqPost =
      .ok [.authorizeCall, .redirect 302 (errorUrl exCfgC "Configuration")] ∧
    callback exCfgC exHooksAuthNull exReqPost =
      .ok [.authorizeCall, .redirect 302 (errorUrl exCfgC
        ("CredentialsSignin&provider=" ++ encodeURIComponentM exCfgC.providerId))] :=
  ⟨(C5_credentials_error_discrimination exCfgC exHooksAuthThrow exReqPost
      (fun _ => .error exErr) rfl rfl rfl rfl).1 exErr rfl,
    (C5_credentials_error_discrimination exCfgC exHooksAuthNull exReqPost
      (fun _ => .ok .null) rfl rfl rfl rfl).2 .null rfl rfl⟩

/-- C6: on the email branch, a null verification lookup answers with
the Verification error redirect and the deletion is never called (the
trace holds only the lookup and the redirect); a successful lookup is
followed immediately by the deletion, before the signin hook, the user
resolution, the session issuance or any other effect. -/
theorem C6_email_token_single_use (cfg : Config) (hooks : Hooks) (req : Req) (a : Adapter)
    (htype : cfg.providerType = "email") (hadapter : hooks.adapter = some a) :
    (∀ v, a.getVerificationRequest req.email req.token = .ok v → v.truthy = false →
      callback cfg hooks req =
        .ok [.getVerificationCall, .redirect 302 (errorUrl cfg "Verification")]) ∧
    (∀ v, a.getVerificationRequest req.email req.token = .ok v → v.truthy = true →
      ∃ t, callback cfg hooks req = .ok t ∧
        t.take 2 = [.getVerificationCall, .deleteVerificationCall]) := by
  have hdis : callback cfg hooks req = emailBranch cfg hooks req := by
    unfold callback
    rw [if_neg (by rw [htype]; decide), if_neg (by rw [htype]; decide), if_pos htype]
  constructor
  · intro v hv htr
    rw [hdis]
    unfold emailBranch emailInner
    simp only [hadapter, hv, htr, Bool.not_false, if_true]
  · intro v hv htr
    have hinner : ∃ rest oe, emailInner cfg hooks req =
        (.getVerificationCall :: .deleteVerificationCall :: rest, oe) := by
      unfold emailInner
      simp only [hadapter, hv, htr, Bool.not_true, Bool.false_eq_true, if_false]
      repeat' split
      all_goals exact ⟨_, _, rfl⟩
    rcases hinner with ⟨rest, oe, hin⟩
    rw [hdis]
    unfold emailBranch
    rw [hin]
    cases oe with
    | none => exact ⟨_, rfl, rfl⟩
    | some e => exact ⟨_, rfl, rfl⟩

/-- C6 witness: the concrete adapter without a pending record answers
Verification with no deletion, and the one with a record deletes right
after the lookup. -/
theorem C6_email_token_single_use_witness :
    callback exCfgE exHooksNoInvite exReq =
      .ok [.getVerificationCall, .redirect 302 (errorUrl exCfgE "Verification")] ∧
    ∃ t, callback exCfgE exHooks exReq = .ok t ∧
      t.take 2 = [.getVerificationCall, .deleteVerificationCall] :=
  ⟨(C6_email_token_single_use exCfgE exHooksNoInvite exReq exAdapterNoInvite rfl rfl).1
      .null rfl rfl,
    (C6_email_token_single_use exCfgE exHooks exReq exAdapter rfl rfl).2
      (.obj [("token", .str "t")]) rfl rfl⟩

/-- The inner OAuth handler always either finishes on a 302 redirect or
reports the error it would throw. -/
theorem oauthInner_spec (cfg : Config) (hooks : Hooks) (req : Req)
    (err : Option JsError) (p acct oprof : JsValue) :
    ∃ t oe, oauthInner cfg hooks req err p acct oprof = (t, oe) ∧
      (oe = none → ∃ l, lastEv t = some (.redirect 302 l)) := by
  unfold oauthInner
  repeat' split
  all_goals refine ⟨_, _, rfl, ?_⟩
  all_goals first
    | (intro _; exact ⟨_, rfl⟩)
    | (intro _; exact ⟨_, lastEv_concat _ _⟩)
    | (intro h; exact Option.noConfusion h)

/-- The email branch body always either finishes on a 302 redirect or
reports the error it would throw. -/
theorem emailInner_spec (cfg : Config) (hooks : Hooks) (req : Req) :
    ∃ t oe, emailInner cfg hooks req = (t, oe) ∧
      (oe = none → ∃ l, lastEv t = some (.redirect 302 l)) := by
  unfold emailInner
  dsimp only
  repeat' split
  all_goals refine ⟨_, _, rfl, ?_⟩
  all_goals first
    | (intro _; exact ⟨_, rfl⟩)
    | (intro _; exact ⟨_, lastEv_concat _ _⟩)
    | (intro h; exact Option.noConfusion h)

/-- C3 (amended): for the oauth and email provider kinds every run of
the callback — whatever the hooks, adapter, transport or token encoder
do, including throwing — returns normally with a 302 redirect as its
final response; no exception propagates.  (For the discourse and
credentials kinds a throwing signin hook, callback handler or token
encoder propagates uncaught; see the counterexample.) -/
theorem C3_error_containment (cfg : Config) (hooks : Hooks) (req : Req)
    (h : cfg.providerType = "oauth" ∨ cfg.providerType = "email") :
    ∃ t l, callback cfg hooks req = .ok t ∧ lastEv t = some (.redirect 302 l) := by
  rcases h with htype | htype
  · have hdis : callback cfg hooks req = oauthBranch cfg hooks req := by
      unfold callback
      rw [if_neg (by rw [htype]; decide), if_pos htype]
    rw [hdis]
    unfold oauthBranch
    cases hout : hooks.oauthOutcome with
    | threw e => exact ⟨_, _, rfl, rfl⟩
    | result err p acct oprof =>
      obtain ⟨t, oe, heq, hsp⟩ := oauthInner_spec cfg hooks req err p acct oprof
      dsimp only
      rw [heq]
      cases oe with
      | none =>
        obtain ⟨l, hl⟩ := hsp rfl
        exact ⟨t, l, rfl, hl⟩
      | some e => exact ⟨_, _, rfl, lastEv_concat _ _⟩
  · have hdis : callback cfg hooks req = emailBranch cfg hooks req := by
      unfold callback
      rw [if_neg (by rw [htype]; decide), if_neg (by rw [htype]; decide), if_pos htype]
    rw [hdis]
    unfold emailBranch
    obtain ⟨t, oe, heq, hsp⟩ := emailInner_spec cfg hooks req
    rw [heq]
    cases oe with
    | none =>
      obtain ⟨l, hl⟩ := hsp rfl
      exact ⟨t, l, rfl, hl⟩
    | some e => exact ⟨_, _, rfl, lastEv_concat _ _⟩

/-- C3 witness: a concrete oauth run returns normally with a final 302
redirect. -/
theorem C3_error_containment_witness :
    ∃ t l, callback exCfgO exHooks exReq = .ok t ∧
      lastEv t = some (.redirect 302 l) :=
  C3_error_containment exCfgO exHooks exReq (Or.inl rfl)

/-- C3 counterexample: in the discourse branch and in the credentials
branch a throwing signin hook propagates uncaught out of the
orchestrator instead of being converted into a redirect. -/
theorem C3_counterexample :
    runErrName (callback exCfg exHooksSigninThrow exReqFull) = some "Boom" ∧
    runErrName (callback exCfgC exHooksSigninThrow exReqPost) = some "Boom" := by
  constructor <;> decide

/-- Session issuance succeeds and writes the session-token cookie when
the jwt hook and the encoder succeed (or when the opaque session mode
is active). -/
theorem issueSessionEvs_ok (cfg : Config) (hooks : Hooks)
    (user account : JsValue) (inu : Bool) (oprof : JsValue) (sess : SessionRec)
    (jp : JsValue) (tok : String)
    (hjc : ∀ p o, hooks.jwtCallback p o = .ok jp)
    (hje : ∀ s p m, hooks.jwtEncode s p m = .ok tok) :
    ∃ evs, issueSessionEvs cfg hooks user account inu oprof sess = (evs, none) ∧
      setsCookieNamed evs cfg.sessionTokenName = true := by
  unfold issueSessionEvs
  by_cases h : cfg.useJwtSession = true
  · simp only [h, if_true, hjc, hje]
    exact ⟨_, rfl, by simp [setsCookieNamed, jwtSessionCookie]⟩
  · simp only [h, if_false]
    exact ⟨_, rfl, by simp [setsCookieNamed, recSessionCookie]⟩

/-- C8 (amended): for the oauth and email provider kinds, a successful
callback ends on a 302 to the configured new-user page when the user is
new and such a page is configured — and to the verified callback URL or
the site root otherwise — and in both cases the session cookie write is
already on the trace before that final redirect.  (The discourse branch
ignores the new-user page entirely; see the counterexample.) -/
theorem C8_new_user_redirect (cfg : Config) (hooks : Hooks) (req : Req)
    (user : JsValue) (sess : SessionRec) (inu : Bool) (v jp : JsValue) (tok : String)
    (hsi : ∀ p a r, hooks.signin p a r = .ok v) (hv : v.isBoolFalse = false)
    (hch : ∀ s p a, hooks.callbackHandler s p a = .ok (user, sess, inu))
    (hjc : ∀ p o, hooks.jwtCallback p o = .ok jp)
    (hje : ∀ s p m, hooks.jwtEncode s p m = .ok tok)
    (hkind : (cfg.providerType = "oauth" ∧
        ∃ p acct oprof, hooks.oauthOutcome = .result none p acct oprof ∧
          p.truthy = true) ∨
      (cfg.providerType = "email" ∧ ∃ a, hooks.adapter = some a ∧
        (∃ v2, a.getVerificationRequest req.email req.token = .ok v2 ∧
          v2.truthy = true) ∧
        a.deleteVerificationRequest req.email req.token = .ok () ∧
        (∃ u2, a.getUserByEmail req.email = .ok u2))) :
    ∃ pre, callback cfg hooks req = .ok (pre ++
        [.redirect 302 (if inu && optTruthy cfg.newUserPage then cfg.newUserPage.getD ""
          else orElseStr cfg.callbackUrl cfg.site)]) ∧
      setsCookieNamed pre cfg.sessionTokenName = true := by
  rcases hkind with ⟨htype, p, acct, oprof, hout, hptr⟩ |
    ⟨htype, a, hadapter, ⟨v2, hv2, htr2⟩, hdel, u2, hu2⟩
  · have hdis : callback cfg hooks req = oauthBranch cfg hooks req := by
      unfold callback
      rw [if_neg (by rw [htype]; decide), if_pos htype]
    obtain ⟨evs, hevs, hcook⟩ :=
      issueSessionEvs_ok cfg hooks user acct inu oprof sess jp tok hjc hje
    simp only [setsCookieNamed] at hcook
    rw [hdis]
    unfold oauthBranch oauthInner
    simp only [hout, Option.isSome_none, Bool.false_eq_true, if_false, hptr,
      Bool.not_true, hsi, hv, hch, hevs]
    by_cases hnu : (inu && optTruthy cfg.newUserPage) = true
    · simp only [hnu, if_true]
      exact ⟨_, rfl, by simp [setsCookieNamed, List.any_append, hcook]⟩
    · simp only [hnu, if_false, Bool.false_eq_true]
      exact ⟨_, rfl, by simp [setsCookieNamed, List.any_append, hcook]⟩
  · have hdis : callback cfg hooks req = emailBranch cfg hooks req := by
      unfold callback
      rw [if_neg (by rw [htype]; decide), if_neg (by rw [htype]; decide), if_pos htype]
    obtain ⟨evs, hevs, hcook⟩ :=
      issueSessionEvs_ok cfg hooks user
        (.obj [("id", .str cfg.providerId), ("type", .str "email"),
          ("providerAccountId", jsOfOpt req.email)]) inu .undefined sess jp tok hjc hje
    simp only [setsCookieNamed] at hcook
    rw [hdis]
    unfold emailBranch emailInner
    simp only [hadapter, hv2, htr2, Bool.not_true, Bool.false_eq_true, if_false,
      hdel, hu2, hsi, hv, hch, hevs]
    by_cases hnu : (inu && optTruthy cfg.newUserPage) = true
    · simp only [hnu, if_true]
      exact ⟨_, rfl, by simp [setsCookieNamed, List.any_append, hcook]⟩
    · simp only [hnu, if_false, Bool.false_eq_true]
      exact ⟨_, rfl, by simp [setsCookieNamed, List.any_append, hcook]⟩

/-- C8 witness: the concrete oauth run is a first login with a new-user
page configured, so the final redirect targets that page and the
session cookie write precedes it on the trace. -/
theorem C8_new_user_redirect_witness :
    ∃ pre, callback exCfgO exHooks exReq = .ok (pre ++
        [.redirect 302 (if true && optTruthy exCfgO.newUserPage then
          exCfgO.newUserPage.getD "" else orElseStr exCfgO.callbackUrl exCfgO.site)]) ∧
      setsCookieNamed pre exCfgO.sessionTokenName = true :=
  C8_new_user_redirect exCfgO exHooks exReq exUser
    { sessionToken := "sess", expires := none } true (.bool true)
    (.str "jwtpayload") "tok123"
    (fun _ _ _ => rfl) rfl (fun _ _ _ => rfl) (fun _ _ => rfl)
    (fun _ _ _ => rfl)
    (Or.inl ⟨rfl, exUser, .obj [("id", .str "1")], .obj [("raw", .str "r")], rfl, rfl⟩)

/-- C8 counterexample: a successful discourse callback with a new user
and a configured new-user page redirects to the callback URL, not to
the new-user page, so the claim fails for the discourse provider
kind. -/
theorem C8_counterexample :
    exCfg.providerType = "discourse" ∧
    exCfg.newUserPage = some "/welcome" ∧
    (∀ s p a, exHooks.callbackHandler s p a =
      .ok (exUser, { sessionToken := "sess", expires := none }, true)) ∧
    (runOk (callback exCfg exHooks exReqFull)).map lastEv =
      some (some (.redirect 302 "https://cb")) ∧
    "https://cb" ≠ "/welcome" :=
  ⟨rfl, rfl, fun _ _ _ => rfl, by decide, by decide⟩

/-- The source's strict-equality check fires exactly on the boolean
false value. -/
theorem isBoolFalse_iff (v : JsValue) : v.isBoolFalse = true ↔ v = .bool false := by
  cases v with
  | bool b => cases b <;> simp [JsValue.isBoolFalse]
  | _ => simp [JsValue.isBoolFalse]

/-- C9: the signin hook denies access exactly when it returns the
boolean false: then the discourse branch stops on the AccessDenied
redirect before the callback handler runs, and the credentials branch
stops before any token is issued; any other return value — undefined,
null, zero, the empty string — lets the flow proceed to user creation
and session issuance. -/
theorem C9_signin_deny_iff_strict_false :
    (∀ (cfg : Config) (hooks : Hooks) (req : Req) (sso sig n : String)
      (v user : JsValue) (sess : SessionRec) (inu : Bool) (jp : JsValue) (tok : String),
      req.sso = some sso → req.sig = some sig → sso ≠ "" → sig ≠ "" →
      sig = cfg.hmac cfg.providerSecret (decodeURIComponentM sso) →
      qsGetJs (ssoDecode sso) "nonce" = .str n →
      req.cookies cfg.nonceHashName = some (cfg.hmac cfg.providerSecret n) →
      cfg.hmac cfg.providerSecret n ≠ "" →
      (qsGetJs (ssoDecode sso) "external_id").truthy = true →
      (qsGetJs (ssoDecode sso) "email").truthy = true →
      (qsGetJs (ssoDecode sso) "username").truthy = true →
      (∀ p a r, hooks.signin p a r = .ok v) →
      (∀ s p a, hooks.callbackHandler s p a = .ok (user, sess, inu)) →
      (∀ p o, hooks.jwtCallback p o = .ok jp) →
      (∀ s p m, hooks.jwtEncode s p m = .ok tok) →
      ((v = .bool false →
          discourseBranch cfg hooks req =
            .ok [.decodePayload, .setCookie (clearNonceCookie cfg), .signinHook,
              .redirect 302 (errorUrl cfg "AccessDenied")]) ∧
        (v ≠ .bool false → ∃ t, discourseBranch cfg hooks req = .ok t ∧
          Ev.callbackHandlerCall ∈ t ∧
          setsCookieNamed t cfg.sessionTokenName = true))) ∧
    (∀ (cfg : Config) (hooks : Hooks) (req : Req)
      (authf : JsValue → Except JsError JsValue) (user v jp : JsValue) (tok : String),
      cfg.providerType = "credentials" → req.method = "POST" →
      cfg.useJwtSession = true → hooks.authorize = some authf →
      authf req.body = .ok user → user.truthy = true →
      (∀ p a r, hooks.signin p a r = .ok v) →
      (∀ p o, hooks.jwtCallback p o = .ok jp) →
      (∀ s p m, hooks.jwtEncode s p m = .ok tok) →
      ((v = .bool false →
          callback cfg hooks req =
            .ok [.authorizeCall, .signinHook,
              .redirect 302 (errorUrl cfg "AccessDenied")]) ∧
        (v ≠ .bool false → ∃ t, callback cfg hooks req = .ok t ∧
          Ev.jwtEncodeCall ∈ t ∧
          setsCookieNamed t cfg.sessionTokenName = true))) := by
  constructor
  · intro cfg hooks req sso sig n v user sess inu jp tok
      hsso hsig hne hne2 hgood hn hcook hne3 heid hem hun hsi hch hjc hje
    have c1 : (sso == "" || sig == "") = false := by simp [hne, hne2]
    have c2 : ssoVerify cfg.hmac cfg.providerSecret sso sig = true := by
      simp [ssoVerify, hgood]
    have c3 : (decide (req.cookies cfg.nonceHashName ≠
          some (cfg.hmac cfg.providerSecret n)) ||
        cfg.hmac cfg.providerSecret n == "" ||
        optFalsy (req.cookies cfg.nonceHashName)) = false := by
      simp [hcook, optFalsy, hne3]
    have c4 : (!(qsGetJs (ssoDecode sso) "external_id").truthy ||
        !(qsGetJs (ssoDecode sso) "email").truthy ||
        !(qsGetJs (ssoDecode sso) "username").truthy) = false := by
      simp [heid, hem, hun]
    constructor
    · intro hfv
      have hbf : v.isBoolFalse = true := (isBoolFalse_iff v).mpr hfv
      unfold discourseBranch
      rw [hsso, hsig]
      simp only [c1, Bool.false_eq_true, if_false, c2, Bool.not_true, hn, c3, c4,
        hsi, hbf, if_true]
    · intro hfv
      have hbf : v.isBoolFalse = false := by
        cases h : v.isBoolFalse with
        | false => rfl
        | true => exact absurd ((isBoolFalse_iff v).mp h) hfv
      obtain ⟨evs, hevs, hcook⟩ := issueSessionEvs_ok cfg hooks user
        (.obj [("id", qsGetJs (ssoDecode sso) "external_id"),
          ("type", .str cfg.providerType), ("provider", .str cfg.providerId)])
        inu .null sess jp tok hjc hje
      simp only [setsCookieNamed] at hcook
      unfold discourseBranch
      rw [hsso, hsig]
      simp only [c1, Bool.false_eq_true, if_false, c2, Bool.not_true, hn, c3, c4,
        hsi, hbf, hch, hevs]
      exact ⟨_, rfl, by simp, by simp [setsCookieNamed, List.any_append, hcook]⟩
  · intro cfg hooks req authf user v jp tok htype hpost hjwt hauth hu htr hsi hjc hje
    have hdis : callback cfg hooks req = credentialsBranch cfg hooks req := by
      unfold callback
      rw [if_neg (by rw [htype]; decide), if_neg (by rw [htype]; decide),
        if_neg (by rw [htype]; decide), if_pos ⟨htype, hpost⟩]
    constructor
    · intro hfv
      have hbf : v.isBoolFalse = true := (isBoolFalse_iff v).mpr hfv
      rw [hdis]
      unfold credentialsBranch
      rw [hauth]
      simp only [hjwt, Bool.not_true, Bool.false_eq_true, if_false, hu, htr,
        hsi, hbf, if_true]
    · intro hfv
      have hbf : v.isBoolFalse = false := by
        cases h : v.isBoolFalse with
        | false => rfl
        | true => exact absurd ((isBoolFalse_iff v).mp h) hfv
      rw [hdis]
      unfold credentialsBranch
      rw [hauth]
      simp only [hjwt, Bool.not_true, Bool.false_eq_true, if_false, hu, htr,
        hsi, hbf, hjc, hje]
      exact ⟨_, rfl, by simp, by simp [setsCookieNamed, jwtSessionCookie]⟩

/-- C9 witness: a signin hook returning the falsy number zero still
lets the concrete discourse run create the user and set the session
cookie, while one returning the boolean false stops on AccessDenied. -/
theorem C9_signin_deny_iff_strict_false_witness :
    (∃ t, discourseBranch exCfg exHooksSigninZero exReqFull = .ok t ∧
      Ev.callbackHandlerCall ∈ t ∧
      setsCookieNamed t exCfg.sessionTokenName = true) ∧
    discourseBranch exCfg exHooksSigninFalse exReqFull =
      .ok [.decodePayload, .setCookie (clearNonceCookie exCfg), .signinHook,
        .redirect 302 (errorUrl exCfg "AccessDenied")] :=
  ⟨(C9_signin_deny_iff_strict_false.1 exCfg exHooksSigninZero exReqFull exSsoFull
      (exHmac "s3cret" exSsoFull) "abc123" (.num 0) exUser
      { sessionToken := "sess", expires := none } true (.str "jwtpayload") "tok123"
      rfl rfl (by decide) (by decide) (by decide) (by rfl) (by decide) (by decide)
      (by rfl) (by rfl) (by rfl)
      (fun _ _ _ => rfl) (fun _ _ _ => rfl) (fun _ _ => rfl) (fun _ _ _ => rfl)).2
      (fun h => JsValue.noConfusion h),
    (C9_signin_deny_iff_strict_false.1 exCfg exHooksSigninFalse exReqFull exSsoFull
      (exHmac "s3cret" exSsoFull) "abc123" (.bool false) exUser
      { sessionToken := "sess", expires := none } true (.str "jwtpayload") "tok123"
      rfl rfl (by decide) (by decide) (by decide) (by rfl) (by decide) (by decide)
      (by rfl) (by rfl) (by rfl)
      (fun _ _ _ => rfl) (fun _ _ _ => rfl) (fun _ _ => rfl) (fun _ _ _ => rfl)).1
      rfl⟩
